import Mathlib

/-!
# Remote configuration provider (`LegacyCommonConfigProvider`)

A shallow embedding of `core/config/common_provider/LegacyCommonConfigProvider.cpp`.

* The provider object is a record of its member variables; every member function is a
  function from the state before the call to the state after it.
* The file system is a finite table from resolved path to file contents: a path is resolved
  (`.`, `..`, empty components) before it is looked up, so two pipeline names can denote one
  file.  Links, the working directory of a relative path and a NUL character inside a path
  are left out.
* Everything the environment decides (whether a file-system call reports an error, what the
  HTTP collaborator answers, what the random device draws) is an explicit argument.
* `int64_t` versions are mathematical integers, no arithmetic being done on them; the
  `int32_t` port is what `atoi` returns, reduced to 32 bits.
* `TrimString`, `SplitString`, `StopUsingConfigServer` and the member initialisers are not in
  the sources read here; they follow the specification and say so.  `atoi` and `strcmp` are
  the C library's.
-/

namespace logtail

/-! ## Finite tables keyed by strings -/

/-- A finite table with string keys: the contents of a `std::unordered_map<std::string, β>`
or of a directory.  Lookup returns the first binding of a key. -/
abbrev Table (β : Type) := List (String × β)

namespace Table

/-- The value bound to `k`, if any (`find` / `count`). -/
def find {β : Type} : Table β → String → Option β
  | [], _ => none
  | (k, v) :: m, x => if k = x then some v else find m x

/-- Binding `k` to `v`, replacing an existing binding (`m[k] = v`). -/
def set {β : Type} : Table β → String → β → Table β
  | [], k, v => [(k, v)]
  | (k', v') :: m, k, v => if k' = k then (k, v) :: m else (k', v') :: set m k v

/-- Removing every binding of `k` (`erase(k)`). -/
def erase {β : Type} : Table β → String → Table β
  | [], _ => []
  | (k', v') :: m, k => if k' = k then erase m k else (k', v') :: erase m k

end Table

/-! ## Wire messages (`configserver::proto`) -/

/-- The `CheckStatus` enumeration of a heartbeat answer. -/
inductive CheckStatus where
  | NEW
  | DELETED
  | MODIFIED
  | UNCHANGED
deriving DecidableEq, Repr

/-- The `ConfigType` enumeration. -/
inductive ConfigType where
  | PIPELINE_CONFIG
  | AGENT_CONFIG
deriving DecidableEq, Repr

/-- One entry of `HeartBeatResponse.pipeline_check_results`. -/
structure ConfigCheckResult where
  name : String
  new_version : Int
  check_status : CheckStatus
  context : String
deriving DecidableEq, Repr

/-- One entry of `FetchPipelineConfigResponse.config_details`. -/
structure ConfigDetail where
  name : String
  detail : String
deriving DecidableEq, Repr

/-- One entry of a request's configuration list. -/
structure ConfigInfo where
  type : ConfigType
  name : String
  version : Int
  context : String
deriving DecidableEq, Repr

/-- The parsed answer to `POST /Agent/HeartBeat`. -/
structure HeartBeatResponse where
  request_id : String
  code : Int
  pipeline_check_results : List ConfigCheckResult
deriving DecidableEq, Repr

/-- The parsed answer to `POST /Agent/FetchPipelineConfig`. -/
structure FetchPipelineConfigResponse where
  request_id : String
  code : Int
  config_details : List ConfigDetail
deriving DecidableEq, Repr

/-! ## Provider state -/

/-- A `ConfigServerAddress(host, port)`. -/
structure ConfigServerAddress where
  host : String
  port : Int
deriving DecidableEq, Repr

/-- The member variables of `LegacyCommonConfigProvider` that the member functions below read
or write. -/
structure LegacyCommonConfigProvider where
  mConfigServerAddresses : List ConfigServerAddress
  mConfigServerAddressId : Nat
  mConfigServerAvailable : Bool
  mConfigServerTags : List String
  mConfigNameVersionMap : Table Int
  mContinuousPipelineConfigDir : String
deriving DecidableEq, Repr

/-- The file system: path to file contents. -/
abbrev FileSystem := Table String

/-! ## `UpdateRemoteConfig` -/

/-- The path `dir / leaf` of `std::filesystem` (`operator/`): an absolute `leaf` replaces
`dir`; otherwise `leaf` is appended, after a separator unless `dir` is empty or already ends
in one. -/
def pathJoin (dir leaf : String) : String :=
  if leaf.toList.head? = some '/' then leaf
  else if dir = "" ∨ dir.toList.getLast? = some '/' then dir ++ leaf
  else dir ++ "/" ++ leaf

/-- The `filePath` of the loop body: `mContinuousPipelineConfigDir / (name + ".yaml")`. -/
def filePath (dir name : String) : String := pathJoin dir (name ++ ".yaml")

/-- The `tmpFilePath` of the loop body: `mContinuousPipelineConfigDir / (name + ".yaml.new")`. -/
def tmpFilePath (dir name : String) : String := pathJoin dir (name ++ ".yaml.new")

/-- The components of a path: the pieces between its separators. -/
def splitSlash : List Char → List (List Char)
  | [] => [[]]
  | c :: cs =>
      if c = '/' then [] :: splitSlash cs
      else
        match splitSlash cs with
        | [] => [[c]]
        | x :: xs => (c :: x) :: xs

/-- One component of a path walked by the operating system; `stack` holds the directories
entered so far, innermost first. An empty component and `.` stay in place, `..` leaves the
innermost directory (the root is its own parent; a relative path may climb above its start),
any other component is entered. -/
def resolveStep (absolute : Bool) (stack : List (List Char)) (c : List Char) :
    List (List Char) :=
  if c = [] ∨ c = ['.'] then stack
  else if c = ['.', '.'] then
    match stack with
    | [] => if absolute then [] else [c]
    | top :: rest => if top = ['.', '.'] then c :: stack else rest
  else c :: stack

/-- Components put together again, one separator between two of them. -/
def joinSlash : List (List Char) → List Char
  | [] => []
  | [c] => c
  | c :: d :: ds => c ++ '/' :: joinSlash (d :: ds)

/-- The file a path leads to, as the path without its `.`, `..`, empty components and doubled
separators: the name under which the file system below keeps the file. Two paths lead to the
same file exactly when they resolve alike (every directory on the way is taken to exist;
links are left out, a relative path stays relative, and the path holds no NUL character). -/
def resolve (path : String) : String :=
  String.mk
    ((if path.toList.head? = some '/' then ['/'] else []) ++
      joinSlash
        ((splitSlash path.toList).foldl
          (resolveStep (decide (path.toList.head? = some '/'))) []).reverse)

/-- What the file system reports during one iteration of the loop of `UpdateRemoteConfig`.
* `openOk`: `ofstream fout(tmpFilePath)` opened the file (`!fout` is false);
* `renameOk`: `filesystem::rename(tmpFilePath, filePath, ec)` left `ec` clear;
* `removeOk`: `filesystem::remove(filePath, ec)` took the file away or found none;
* `removeTmpOk`: the same for `filesystem::remove(tmpFilePath, ec)` after a failed rename;
* `writeFails`: `none` when `fout << configDetail; fout.close()` stored the whole detail,
  `some k` when the write failed with only the first `k` characters stored (the code does
  not look at the stream afterwards). -/
structure FsOutcome where
  openOk : Bool
  renameOk : Bool
  removeOk : Bool
  removeTmpOk : Bool
  writeFails : Option Nat
deriving DecidableEq, Repr

/-- The inner `for (const auto& detail : configDetails)` loop: the `detail` of the first entry
named `name`, the empty string when there is none. -/
def findConfigDetail : List ConfigDetail → String → String
  | [], _ => ""
  | d :: ds, name => if d.name = name then d.detail else findConfigDetail ds name

/-- What `fout << configDetail; fout.close()` leaves in the temporary file. -/
def storedBytes (o : FsOutcome) (configDetail : String) : String :=
  match o.writeFails with
  | none => configDetail
  | some k => String.mk (configDetail.toList.take k)

/-- The `case NEW: case MODIFIED:` block: look the detail up, record the version, write the
temporary file and rename it over the target. -/
def writeConfig (dir : String) (configDetails : List ConfigDetail) (o : FsOutcome)
    (st : Table Int × FileSystem) (checkResult : ConfigCheckResult) : Table Int × FileSystem :=
  let configDetail := findConfigDetail configDetails checkResult.name
  let versions := st.1.set checkResult.name checkResult.new_version
  if !o.openOk then (versions, st.2)
  else
    let written :=
      st.2.set (resolve (tmpFilePath dir checkResult.name)) (storedBytes o configDetail)
    if o.renameOk then
      (versions,
        (written.erase (resolve (tmpFilePath dir checkResult.name))).set
          (resolve (filePath dir checkResult.name)) (storedBytes o configDetail))
    else if o.removeTmpOk then
      (versions, written.erase (resolve (tmpFilePath dir checkResult.name)))
    else (versions, written)

/-- One iteration of the `for (const auto& checkResult : checkResults)` loop, acting on the
version map and the file system. -/
def applyCheckResult (dir : String) (configDetails : List ConfigDetail) (o : FsOutcome)
    (st : Table Int × FileSystem) (checkResult : ConfigCheckResult) : Table Int × FileSystem :=
  match checkResult.check_status with
  | CheckStatus.DELETED =>
      (st.1.erase checkResult.name,
        if o.removeOk then st.2.erase (resolve (filePath dir checkResult.name)) else st.2)
  | CheckStatus.NEW => writeConfig dir configDetails o st checkResult
  | CheckStatus.MODIFIED => writeConfig dir configDetails o st checkResult
  | CheckStatus.UNCHANGED => st

/-- The loop of `UpdateRemoteConfig`; `i` is the position of the next check result, used to
ask the environment for the outcome of that iteration's file operations. -/
def updateLoop (dir : String) (configDetails : List ConfigDetail) (outcomes : Nat → FsOutcome) :
    Nat → List ConfigCheckResult → Table Int × FileSystem → Table Int × FileSystem
  | _, [], st => st
  | i, r :: rs, st =>
      updateLoop dir configDetails outcomes (i + 1) rs
        (applyCheckResult dir configDetails (outcomes i) st r)

/-- Modelled from the spec: `StopUsingConfigServer()` is declared in the provider's header,
which is not among the sources; "permanently mark the provider unavailable". -/
def StopUsingConfigServer (s : LegacyCommonConfigProvider) : LegacyCommonConfigProvider :=
  { s with mConfigServerAvailable := false }

/-- The member function `UpdateRemoteConfig(checkResults, configDetails)`.  `mkdirOk` tells whether
`create_directories` left `ec` clear; creating directories changes no file. -/
def UpdateRemoteConfig (mkdirOk : Bool) (outcomes : Nat → FsOutcome)
    (checkResults : List ConfigCheckResult) (configDetails : List ConfigDetail)
    (s : LegacyCommonConfigProvider) (fs : FileSystem) :
    LegacyCommonConfigProvider × FileSystem :=
  if !mkdirOk then (StopUsingConfigServer s, fs)
  else
    let r := updateLoop s.mContinuousPipelineConfigDir configDetails outcomes 0 checkResults
      (s.mConfigNameVersionMap, fs)
    ({ s with mConfigNameVersionMap := r.1 }, r.2)

/-! ## `Init` -/

/-- The two members of the agent configuration (`AppConfig::GetConfig()`) that `Init` reads.
A field is `some` exactly when the member is present with the JSON type `Init` tests for
(an array, resp. an object); array entries and member values are given by `asString()`. -/
structure AgentConfig where
  ilogtail_configserver_address : Option (List String)
  ilogtail_tags : Option (List (String × String))
deriving DecidableEq, Repr

/-- Modelled from the spec: `TrimString` (common/StringTools) is not among the sources;
"each entry is trimmed": leading and trailing blanks are dropped. -/
def TrimString (str : String) : String :=
  String.mk ((str.toList.dropWhile (fun c => c = ' ')).reverse.dropWhile (fun c => c = ' ')).reverse

/-- Modelled from the spec: `SplitString` (common/StringTools) is not among the sources;
"each entry is ... split on the last `:`": the part before the last delimiter and the part
after it, or the whole string when it has no delimiter. -/
def SplitString (str : String) (delim : Char) : List String :=
  match str.toList.reverse.dropWhile (fun c => c ≠ delim) with
  | [] => [str]
  | _ :: before =>
      [String.mk before.reverse,
        String.mk (str.toList.reverse.takeWhile (fun c => c ≠ delim)).reverse]

/-- The bytes `c_str()` exposes to a C string function: those before the first NUL. -/
def c_str (s : String) : List Char := s.toList.takeWhile (fun c => c ≠ '\x00')

/-- The white-space characters of the C locale (`isspace`). -/
def isspace (c : Char) : Bool :=
  c = ' ' || c = '\t' || c = '\n' || c = '\x0b' || c = '\x0c' || c = '\r'

/-- The value of the leading run of decimal digits, accumulated from `acc`. -/
def digitsValue : Nat → List Char → Nat
  | acc, [] => acc
  | acc, c :: cs => if c.isDigit then digitsValue (acc * 10 + (c.toNat - 48)) cs else acc

/-- The conversion of a `long` to `int`: the low 32 bits, read as a signed number. -/
def toInt32 (x : Int) : Int := (x + 2 ^ 31) % 2 ^ 32 - 2 ^ 31

/-- The C library's `strtol` in base 10: skip leading white space, read an optional sign, then
the leading run of decimal digits (`0` when there is no digit); a value outside `long` is
replaced by the nearest end of `long`. -/
def strtol (s : List Char) : Int :=
  match s.dropWhile isspace with
  | '-' :: cs => max (-(digitsValue 0 cs : Int)) (-(2 ^ 63))
  | '+' :: cs => min (digitsValue 0 cs : Int) (2 ^ 63 - 1)
  | cs => min (digitsValue 0 cs : Int) (2 ^ 63 - 1)

/-- The C library's `atoi`, as the GNU C library computes it: `(int) strtol(s, NULL, 10)`. A
value that fits an `int` is returned as it is; a larger one keeps its low 32 bits, so
`4294967376` reads as `80`. -/
def atoi (s : List Char) : Int := toInt32 (strtol s)

/-- A port part that is numeric in the plain sense of the specification's "port must parse
as integer": an optional sign, then one or more decimal digits, and nothing else. -/
def portPartIsNumeric (portPart : String) : Bool :=
  match portPart.toList with
  | '-' :: cs => !cs.isEmpty && cs.all Char.isDigit
  | '+' :: cs => !cs.isEmpty && cs.all Char.isDigit
  | cs => !cs.isEmpty && cs.all Char.isDigit

/-- The body of the loop over `ilogtail_configserver_address`. -/
def addConfigServerAddress (s : LegacyCommonConfigProvider) (entry : String) :
    LegacyCommonConfigProvider :=
  match SplitString (TrimString entry) ':' with
  | [host, portPart] =>
      let port := atoi (c_str portPart)
      if port < 1 ∨ port > 65535 then s
      else { s with mConfigServerAddresses := s.mConfigServerAddresses ++ [⟨host, port⟩] }
  | _ => s

/-- The member function `Init(dir)`, as far as the provider's own members go (the base
class's `Init(dir)` and the start of the worker thread are left out). -/
def Init (confJson : AgentConfig) (s : LegacyCommonConfigProvider) : LegacyCommonConfigProvider :=
  let s1 :=
    match confJson.ilogtail_configserver_address with
    | some entries =>
        { (entries.foldl addConfigServerAddress s) with mConfigServerAvailable := true }
    | none => s
  match confJson.ilogtail_tags with
  | some members =>
      members.foldl (fun t kv => { t with mConfigServerTags := t.mConfigServerTags ++ [kv.2] }) s1
  | none => s1

/-- Modelled from the spec: the provider as constructed, before `Init`.  The member
initialisers are in the header, which is not among the sources; the spec has the provider
"inert" until `Init` marks it available, with no address, tag or version recorded. -/
def fresh (dir : String) : LegacyCommonConfigProvider :=
  { mConfigServerAddresses := []
    mConfigServerAddressId := 0
    mConfigServerAvailable := false
    mConfigServerTags := []
    mConfigNameVersionMap := []
    mContinuousPipelineConfigDir := dir }

/-! ## `GetOneConfigServerAddress` -/

/-- The `while (size > 1 && tmpId == mConfigServerAddressId) tmpId = rd() % size` loop over
the values the random device will draw; `none` when the draws run out before the loop ends. -/
def redraw (size cur : Nat) : Nat → List Nat → Option (Nat × List Nat)
  | tmpId, [] => if size > 1 ∧ tmpId = cur then none else some (tmpId, [])
  | tmpId, r :: rest =>
      if size > 1 ∧ tmpId = cur then redraw size cur (r % size) rest else some (tmpId, r :: rest)

/-- The `if (changeConfigServer) { ... }` block: the index to use from now on and the draws
left, `none` when the draws run out inside the loop. -/
def pickAddressId (changeConfigServer : Bool) (rd : List Nat) (s : LegacyCommonConfigProvider) :
    Option (Nat × List Nat) :=
  if changeConfigServer then
    match rd with
    | [] => none
    | r :: rest =>
        redraw s.mConfigServerAddresses.length s.mConfigServerAddressId
          (r % s.mConfigServerAddresses.length) rest
  else some (s.mConfigServerAddressId, rd)

/-- The member function `GetOneConfigServerAddress(changeConfigServer)`.  `rd` lists the
values the random device draws from now on.  The result is the returned address, the provider
afterwards and the draws not yet used; it is `none` when the call does not return a value:
the draws ran out inside the loop, or the index is outside the vector. -/
def GetOneConfigServerAddress (changeConfigServer : Bool) (rd : List Nat)
    (s : LegacyCommonConfigProvider) :
    Option (ConfigServerAddress × LegacyCommonConfigProvider × List Nat) :=
  if s.mConfigServerAddresses.length = 0 then some (⟨"", -1⟩, s, rd)
  else
    match pickAddressId changeConfigServer rd s with
    | none => none
    | some (id, rest) =>
        match s.mConfigServerAddresses[id]? with
        | none => none
        | some a => some (⟨a.host, a.port⟩, { s with mConfigServerAddressId := id }, rest)

/-! ## `SendHeartbeat`, `FetchPipelineConfig`, `GetConfigUpdate` -/

/-- The C library's `strcmp` on two NUL-terminated strings: `0` when they are equal, else the
difference of the first two bytes that differ. -/
def strcmp : List Char → List Char → Int
  | [], [] => 0
  | [], b :: _ => -(b.toNat : Int)
  | a :: _, [] => (a.toNat : Int)
  | a :: as, b :: bs => if a = b then strcmp as bs else (a.toNat : Int) - (b.toNat : Int)

/-- The message of a heartbeat request. -/
structure HeartBeatRequest where
  request_id : String
  agent_id : String
  agent_type : String
  tags : List String
  running_status : String
  startup_time : Int
  interval : Int
  pipeline_configs : List ConfigInfo
deriving DecidableEq, Repr

/-- The message of a fetch request. -/
structure FetchPipelineConfigRequest where
  request_id : String
  agent_id : String
  req_configs : List ConfigInfo
deriving DecidableEq, Repr

/-- The message carried by an HTTP request, before serialisation. -/
inductive RequestBody where
  | heartBeat (req : HeartBeatRequest)
  | fetchPipelineConfig (req : FetchPipelineConfigRequest)
deriving DecidableEq, Repr

/-- The `HttpRequest` handed to `SendHttpRequest` (always a plain-HTTP `POST` with the
protobuf content type). -/
structure HttpRequest where
  host : String
  port : Int
  url : String
  body : RequestBody
deriving DecidableEq, Repr

/-- What one cycle of the worker takes from outside the provider.
* `heartbeatRequestID`, `fetchRequestID`: the values of `Base64Encode(...)` the two functions
  compute from the clock;
* `sendHeartBeat`, `sendFetch`: `SendHttpRequest` followed by `ParseFromString`; `none` when
  `SendHttpRequest` returns false;
* `rd`: the values the random device draws;
* `mkdirOk`, `outcomes`: what the file system reports to `UpdateRemoteConfig`. -/
structure Env where
  instanceId : String
  interval : Int
  heartbeatRequestID : String
  fetchRequestID : String
  sendHeartBeat : HttpRequest → Option HeartBeatResponse
  sendFetch : HttpRequest → Option FetchPipelineConfigResponse
  rd : List Nat
  mkdirOk : Bool
  outcomes : Nat → FsOutcome

/-- The heartbeat message built by `SendHeartbeat` (the version and address attributes are
left out). -/
def heartBeatRequest (env : Env) (s : LegacyCommonConfigProvider) : HeartBeatRequest :=
  { request_id := env.heartbeatRequestID
    agent_id := env.instanceId
    agent_type := "iLogtail"
    tags := s.mConfigServerTags
    running_status := ""
    startup_time := 0
    interval := env.interval
    pipeline_configs :=
      s.mConfigNameVersionMap.map (fun kv => ⟨ConfigType.PIPELINE_CONFIG, kv.1, kv.2, ""⟩) }

/-- The `HttpRequest` that `SendHeartbeat` hands to `SendHttpRequest`. -/
def heartBeatHttpRequest (env : Env) (s : LegacyCommonConfigProvider)
    (configServerAddress : ConfigServerAddress) : HttpRequest :=
  ⟨configServerAddress.host, configServerAddress.port, "/Agent" ++ "/" ++ "HeartBeat",
    RequestBody.heartBeat (heartBeatRequest env s)⟩

/-- The member function `SendHeartbeat(configServerAddress)`: the check results it returns
and the request it sent. -/
def SendHeartbeat (env : Env) (s : LegacyCommonConfigProvider)
    (configServerAddress : ConfigServerAddress) : List ConfigCheckResult × HttpRequest :=
  (match env.sendHeartBeat (heartBeatHttpRequest env s configServerAddress) with
    | none => []
    | some heartBeatResp =>
        if strcmp (c_str heartBeatResp.request_id) (c_str env.heartbeatRequestID) ≠ 0 then []
        else heartBeatResp.pipeline_check_results,
    heartBeatHttpRequest env s configServerAddress)

/-- The `configInfos` loop of `FetchPipelineConfig`. -/
def fetchConfigInfos : List ConfigCheckResult → List ConfigInfo
  | [] => []
  | r :: rs =>
      if r.check_status ≠ CheckStatus.DELETED then
        ⟨ConfigType.PIPELINE_CONFIG, r.name, r.new_version, r.context⟩ :: fetchConfigInfos rs
      else fetchConfigInfos rs

/-- The `HttpRequest` that `FetchPipelineConfig` hands to `SendHttpRequest`. -/
def fetchHttpRequest (env : Env) (configServerAddress : ConfigServerAddress)
    (requestConfigs : List ConfigCheckResult) : HttpRequest :=
  ⟨configServerAddress.host, configServerAddress.port, "/Agent" ++ "/" ++ "FetchPipelineConfig",
    RequestBody.fetchPipelineConfig
      ⟨env.fetchRequestID, env.instanceId, fetchConfigInfos requestConfigs⟩⟩

/-- The member function `FetchPipelineConfig(configServerAddress, requestConfigs)`: the
details it returns and the request it sent. -/
def FetchPipelineConfig (env : Env) (configServerAddress : ConfigServerAddress)
    (requestConfigs : List ConfigCheckResult) : List ConfigDetail × HttpRequest :=
  (match env.sendFetch (fetchHttpRequest env configServerAddress requestConfigs) with
    | none => []
    | some fetchConfigResp =>
        if strcmp (c_str fetchConfigResp.request_id) (c_str env.fetchRequestID) ≠ 0 then []
        else fetchConfigResp.config_details,
    fetchHttpRequest env configServerAddress requestConfigs)

/-- What a call of `GetConfigUpdate` leaves behind: the provider, the file system and the HTTP
requests handed to `SendHttpRequest`, in order. -/
structure Cycle where
  provider : LegacyCommonConfigProvider
  files : FileSystem
  sent : List HttpRequest
deriving DecidableEq, Repr

/-- The member function `GetConfigUpdate()`; `none` when a call of
`GetOneConfigServerAddress` inside it does not return. -/
def GetConfigUpdate (env : Env) (s : LegacyCommonConfigProvider) (fs : FileSystem) :
    Option Cycle :=
  if s.mConfigServerAvailable then
    match GetOneConfigServerAddress false env.rd s with
    | none => none
    | some (configServerAddress, s1, rd1) =>
        let hb := SendHeartbeat env s1 configServerAddress
        let checkResults := hb.1
        if checkResults.length > 0 then
          let ft := FetchPipelineConfig env configServerAddress checkResults
          let configDetails := ft.1
          if checkResults.length > 0 then
            let r := UpdateRemoteConfig env.mkdirOk env.outcomes checkResults configDetails s1 fs
            some ⟨r.1, r.2, [hb.2, ft.2]⟩
          else
            match GetOneConfigServerAddress true rd1 s1 with
            | none => none
            | some (_, s2, _) => some ⟨s2, fs, [hb.2, ft.2]⟩
        else
          match GetOneConfigServerAddress true rd1 s1 with
          | none => none
          | some (_, s2, _) => some ⟨s2, fs, [hb.2]⟩
  else some ⟨s, fs, []⟩

/-- The calls of `GetConfigUpdate()` that the worker loop (`CheckUpdateThread`) makes one after
the other, each with what the outside world supplies to it; the requests sent are collected
in order. -/
def GetConfigUpdates : List Env → LegacyCommonConfigProvider → FileSystem → Option Cycle
  | [], s, fs => some ⟨s, fs, []⟩
  | env :: envs, s, fs =>
      match GetConfigUpdate env s fs with
      | none => none
      | some c =>
          match GetConfigUpdates envs c.provider c.files with
          | none => none
          | some c2 => some ⟨c2.provider, c2.files, c.sent ++ c2.sent⟩

/-! ## Prometheus scrape configuration (`ScrapeConfig`, `InputPrometheus`)

`ScrapeConfig.h` declares the fields; the bodies of `ScrapeConfig::Init` and
`InputPrometheus::Init` are not among the sources read here and follow the specification and
the assertions of `InputPrometheusUnittest`. -/

/-- Modelled from the spec: the relabel `Action` enumeration (prometheus/labels/Relabel.h is
not among the sources); the vocabulary is the specification's, the spelling `KEEP`, `REPLACE`
the unit test's. -/
inductive Action where
  | REPLACE
  | KEEP
  | DROP
  | HASHMOD
  | LABELMAP
  | LABELDROP
  | LABELKEEP
  | LOWERCASE
  | UPPERCASE
  | KEEPEQUAL
  | DROPEQUAL
deriving DecidableEq, Repr

/-- Modelled from the spec: the action named by a descriptor's `action` string; "unknown
action" has no value. -/
def StringToAction : String → Option Action
  | "replace" => some Action.REPLACE
  | "keep" => some Action.KEEP
  | "drop" => some Action.DROP
  | "hashmod" => some Action.HASHMOD
  | "labelmap" => some Action.LABELMAP
  | "labeldrop" => some Action.LABELDROP
  | "labelkeep" => some Action.LABELKEEP
  | "lowercase" => some Action.LOWERCASE
  | "uppercase" => some Action.UPPERCASE
  | "keepequal" => some Action.KEEPEQUAL
  | "dropequal" => some Action.DROPEQUAL
  | _ => none

/-- Modelled from the spec: one `RelabelConfig` (prometheus/labels/Relabel.h is not among the
sources), with the fields the specification lists. -/
structure RelabelConfig where
  mSourceLabels : List String
  mSeparator : String
  mRegex : String
  mModulus : Nat
  mTargetLabel : String
  mReplacement : String
  mAction : Action
deriving DecidableEq, Repr

/-- Modelled from the spec: a `RelabelConfigList`, an ordered list of relabel configurations
(the unit test reads its member `mRelabelConfigs`). -/
structure RelabelConfigList where
  mRelabelConfigs : List RelabelConfig
deriving DecidableEq, Repr

/-- One element of `relabel_configs` or `metric_relabel_configs` in a descriptor: its declared
action and the optional members. -/
structure RelabelDescriptor where
  action : String
  source_labels : List String
  separator : Option String
  regex : Option String
  modulus : Option Nat
  target_label : Option String
  replacement : Option String
deriving DecidableEq, Repr

/-- The `"ScrapeConfig"` object of an input descriptor: a member is `none` when the key is
absent. Authentication and TLS members are kept by presence only. -/
structure ScrapeConfigDescriptor where
  job_name : Option String
  metrics_path : Option String
  scheme : Option String
  scrape_interval : Option String
  scrape_timeout : Option String
  honor_labels : Option Bool
  honor_timestamps : Option Bool
  follow_redirects : Option Bool
  max_scrape_size : Option String
  sample_limit : Option Nat
  series_limit : Option Nat
  relabel_configs : List RelabelDescriptor
  metric_relabel_configs : List RelabelDescriptor
  basic_auth : Bool
  authorization : Bool
  tls_config : Bool
deriving DecidableEq, Repr

/-- The fields of `class ScrapeConfig` (ScrapeConfig.h) that the statements below read; the
request headers, the TLS settings, the parameters, the query string and the external labels
are left out. -/
structure ScrapeConfig where
  mJobName : String
  mScrapeIntervalSeconds : Int
  mScrapeTimeoutSeconds : Int
  mMetricsPath : String
  mHonorLabels : Bool
  mHonorTimestamps : Bool
  mScheme : String
  mFollowRedirects : Bool
  mEnableTLS : Bool
  mMaxScrapeSizeBytes : Nat
  mSampleLimit : Nat
  mSeriesLimit : Nat
  mRelabelConfigs : RelabelConfigList
  mMetricRelabelConfigs : RelabelConfigList
deriving DecidableEq, Repr

/-- The value of a decimal numeral: one or more decimal digits and nothing else. -/
def parseDecimal (digits : List Char) : Option Nat :=
  if !digits.isEmpty && digits.all Char.isDigit then some (digitsValue 0 digits) else none

/-- Modelled from the spec: "duration strings like `15s` parsed into seconds": a decimal
numeral followed by `s`; anything else is a malformed duration. -/
def parseDuration (duration : String) : Option Nat :=
  match duration.toList.reverse with
  | 's' :: digits => parseDecimal digits.reverse
  | _ => none

/-- Modelled from the spec: "human-size suffixes (`KiB`, `MiB`, `GiB`) accepted": a decimal
numeral followed by one of the three binary suffixes; anything else is a malformed size. -/
def parseSize (size : String) : Option Nat :=
  match size.toList.reverse with
  | 'B' :: 'i' :: 'K' :: digits => (parseDecimal digits.reverse).map (fun n => n * 1024)
  | 'B' :: 'i' :: 'M' :: digits =>
      (parseDecimal digits.reverse).map (fun n => n * (1024 * 1024))
  | 'B' :: 'i' :: 'G' :: digits =>
      (parseDecimal digits.reverse).map (fun n => n * (1024 * 1024 * 1024))
  | _ => none

/-- Modelled from the spec: one relabel configuration from its descriptor, with the defaults
the specification gives (separator `;`, regex `.*`, replacement `$1`); an unknown action is
an error. -/
def initRelabelConfig (r : RelabelDescriptor) : Option RelabelConfig :=
  match StringToAction r.action with
  | none => none
  | some a =>
      some
        { mSourceLabels := r.source_labels
          mSeparator := r.separator.getD ";"
          mRegex := r.regex.getD ".*"
          mModulus := r.modulus.getD 0
          mTargetLabel := r.target_label.getD ""
          mReplacement := r.replacement.getD "$1"
          mAction := a }

/-- Modelled from the spec: a relabel chain from its descriptors, in declared order; it fails
as soon as one element does. -/
def initRelabelConfigs : List RelabelDescriptor → Option (List RelabelConfig)
  | [] => some []
  | r :: rs =>
      match initRelabelConfig r, initRelabelConfigs rs with
      | some c, some cs => some (c :: cs)
      | _, _ => none

/-- Modelled from the spec: `ScrapeConfig::Init(config)` (its body is not among the sources).
`none` stands for the return value `false`. The failure reasons are the specification's:
missing or empty `job_name`, malformed duration, non-positive interval or timeout, timeout
exceeding interval, malformed size, unknown relabel action, conflicting auth, TLS without
`https`; a value must also fit the field ScrapeConfig.h declares for it (`int64_t` seconds,
`uint64_t` sizes and limits). An absent size or limit is 0; an absent interval or timeout
has no positive value, the specification giving no default for them. -/
def ScrapeConfig.Init (config : ScrapeConfigDescriptor) : Option ScrapeConfig :=
  match config.job_name with
  | none => none
  | some jobName =>
      if jobName = "" then none
      else
        match config.scrape_interval.bind parseDuration,
          config.scrape_timeout.bind parseDuration with
        | some interval, some timeout =>
            if interval < 1 ∨ timeout < 1 ∨ interval < timeout ∨ 2 ^ 63 ≤ interval then none
            else
              match (match config.max_scrape_size with
                  | none => some 0
                  | some size => parseSize size),
                initRelabelConfigs config.relabel_configs,
                initRelabelConfigs config.metric_relabel_configs with
              | some maxBytes, some relabel, some metricRelabel =>
                  if 2 ^ 64 ≤ maxBytes ∨ 2 ^ 64 ≤ config.sample_limit.getD 0
                      ∨ 2 ^ 64 ≤ config.series_limit.getD 0 then none
                  else if config.basic_auth ∧ config.authorization then none
                  else if config.tls_config ∧ config.scheme ≠ some "https" then none
                  else
                    some
                      { mJobName := jobName
                        mScrapeIntervalSeconds := interval
                        mScrapeTimeoutSeconds := timeout
                        mMetricsPath := config.metrics_path.getD "/metrics"
                        mHonorLabels := config.honor_labels.getD false
                        mHonorTimestamps := config.honor_timestamps.getD true
                        mScheme := config.scheme.getD "http"
                        mFollowRedirects := config.follow_redirects.getD true
                        mEnableTLS := config.tls_config
                        mMaxScrapeSizeBytes := maxBytes
                        mSampleLimit := config.sample_limit.getD 0
                        mSeriesLimit := config.series_limit.getD 0
                        mRelabelConfigs := ⟨relabel⟩
                        mMetricRelabelConfigs := ⟨metricRelabel⟩ }
              | _, _, _ => none
        | _, _ => none

/-- The descriptor of a Prometheus input, as far as `Init` reads it: the `"ScrapeConfig"`
member, `none` when the descriptor has no such object. -/
structure InputPrometheusDescriptor where
  scrapeConfig : Option ScrapeConfigDescriptor
deriving DecidableEq, Repr

/-- Modelled from the spec: the target subscriber of a Prometheus input, with the two members
the unit test reads. -/
structure TargetSubscriberScheduler where
  mJobName : String
  mScrapeConfigPtr : ScrapeConfig
deriving DecidableEq, Repr

/-- Modelled from the spec: an inner processor created by a Prometheus input, named by its
plugin class, with the scrape configuration it shares. -/
inductive InnerProcessor where
  | ProcessorPromParseMetricNative (mScrapeConfigPtr : ScrapeConfig)
  | ProcessorPromRelabelMetricNative (mScrapeConfigPtr : ScrapeConfig)
deriving DecidableEq, Repr

/-- Modelled from the spec: the members of `InputPrometheus` that the unit test reads (the
member name is spelt as there). -/
structure InputPrometheus where
  mTargetSubscirber : TargetSubscriberScheduler
  mInnerProcessors : List InnerProcessor
deriving DecidableEq, Repr

/-- Modelled from the spec: `InputPrometheus::Init(config, optionalGoPipeline)` (its body is
not among the sources). It fails without a `"ScrapeConfig"` object or when
`ScrapeConfig::Init` fails; otherwise the scrape configuration feeds the target subscriber and
the two in-pipeline processors, parse first and relabel second. -/
def InputPrometheus.Init (config : InputPrometheusDescriptor) : Option InputPrometheus :=
  match config.scrapeConfig with
  | none => none
  | some scrapeConfig =>
      match ScrapeConfig.Init scrapeConfig with
      | none => none
      | some cfg =>
          some
            { mTargetSubscirber := ⟨cfg.mJobName, cfg⟩
              mInnerProcessors :=
                [InnerProcessor.ProcessorPromParseMetricNative cfg,
                  InnerProcessor.ProcessorPromRelabelMetricNative cfg] }

/-! ## File-server registry (`FileServer`)

`FileServer.h` declares the maps and the member functions; their bodies are not among the
sources read here and follow the specification. -/

/-- A reference held by the registry: the address of an options object or of a pipeline
context. -/
abbrev Ref := Nat

/-- A registered configuration: the `(options, context)` pair. -/
abbrev RegistryConfig := Ref × Ref

/-- The four configuration maps of `class FileServer`. -/
structure FileServer where
  mPipelineNameFileDiscoveryConfigsMap : Table RegistryConfig
  mPipelineNameFileReaderConfigsMap : Table RegistryConfig
  mPipelineNameMultilineConfigsMap : Table RegistryConfig
  mPipelineNameFileTagConfigsMap : Table RegistryConfig
deriving DecidableEq, Repr

namespace FileServer

/-- The registry as constructed: no entry. -/
def empty : FileServer := ⟨[], [], [], []⟩

/-- Modelled from the spec: `GetFileDiscoveryConfig(name)`, "returns the `(opts, ctx)` pair or
none". -/
def GetFileDiscoveryConfig (s : FileServer) (name : String) : Option RegistryConfig :=
  s.mPipelineNameFileDiscoveryConfigsMap.find name

/-- Modelled from the spec: `AddFileDiscoveryConfig(name, opts, ctx)`, "inserts; overwrites
silently if `name` already present". -/
def AddFileDiscoveryConfig (s : FileServer) (name : String) (opts ctx : Ref) : FileServer :=
  { s with
    mPipelineNameFileDiscoveryConfigsMap :=
      s.mPipelineNameFileDiscoveryConfigsMap.set name (opts, ctx) }

/-- Modelled from the spec: `RemoveFileDiscoveryConfig(name)`, "erases; no-op if absent". -/
def RemoveFileDiscoveryConfig (s : FileServer) (name : String) : FileServer :=
  { s with
    mPipelineNameFileDiscoveryConfigsMap := s.mPipelineNameFileDiscoveryConfigsMap.erase name }

/-- Modelled from the spec: `GetFileReaderConfig(name)`, "returns the `(opts, ctx)` pair or
none". -/
def GetFileReaderConfig (s : FileServer) (name : String) : Option RegistryConfig :=
  s.mPipelineNameFileReaderConfigsMap.find name

/-- Modelled from the spec: `AddFileReaderConfig(name, opts, ctx)`, "inserts; overwrites
silently if `name` already present". -/
def AddFileReaderConfig (s : FileServer) (name : String) (opts ctx : Ref) : FileServer :=
  { s with
    mPipelineNameFileReaderConfigsMap :=
      s.mPipelineNameFileReaderConfigsMap.set name (opts, ctx) }

/-- Modelled from the spec: `RemoveFileReaderConfig(name)`, "erases; no-op if absent". -/
def RemoveFileReaderConfig (s : FileServer) (name : String) : FileServer :=
  { s with
    mPipelineNameFileReaderConfigsMap := s.mPipelineNameFileReaderConfigsMap.erase name }

/-- Modelled from the spec: `GetMultilineConfig(name)`, "returns the `(opts, ctx)` pair or
none". -/
def GetMultilineConfig (s : FileServer) (name : String) : Option RegistryConfig :=
  s.mPipelineNameMultilineConfigsMap.find name

/-- Modelled from the spec: `AddMultilineConfig(name, opts, ctx)`, "inserts; overwrites
silently if `name` already present". -/
def AddMultilineConfig (s : FileServer) (name : String) (opts ctx : Ref) : FileServer :=
  { s with
    mPipelineNameMultilineConfigsMap :=
      s.mPipelineNameMultilineConfigsMap.set name (opts, ctx) }

/-- Modelled from the spec: `RemoveMultilineConfig(name)`, "erases; no-op if absent". -/
def RemoveMultilineConfig (s : FileServer) (name : String) : FileServer :=
  { s with
    mPipelineNameMultilineConfigsMap := s.mPipelineNameMultilineConfigsMap.erase name }

/-- Modelled from the spec: `GetFileTagConfig(name)`, "returns the `(opts, ctx)` pair or
none". -/
def GetFileTagConfig (s : FileServer) (name : String) : Option RegistryConfig :=
  s.mPipelineNameFileTagConfigsMap.find name

/-- Modelled from the spec: `AddFileTagConfig(name, opts, ctx)`, "inserts; overwrites silently
if `name` already present". -/
def AddFileTagConfig (s : FileServer) (name : String) (opts ctx : Ref) : FileServer :=
  { s with
    mPipelineNameFileTagConfigsMap := s.mPipelineNameFileTagConfigsMap.set name (opts, ctx) }

/-- Modelled from the spec: `RemoveFileTagConfig(name)`, "erases; no-op if absent". -/
def RemoveFileTagConfig (s : FileServer) (name : String) : FileServer :=
  { s with mPipelineNameFileTagConfigsMap := s.mPipelineNameFileTagConfigsMap.erase name }

end FileServer

/-- The four kinds of configuration the registry holds. -/
inductive ConfigKind where
  | discovery
  | reader
  | multiline
  | tag
deriving DecidableEq, Repr

/-- A call that changes the registry: `Add<Kind>Config(name, opts, ctx)` or
`Remove<Kind>Config(name)`. -/
inductive RegistryCall where
  | add (kind : ConfigKind) (name : String) (opts ctx : Ref)
  | remove (kind : ConfigKind) (name : String)
deriving DecidableEq, Repr

namespace FileServer

/-- The member function a call stands for, applied to the registry. -/
def call (s : FileServer) : RegistryCall → FileServer
  | RegistryCall.add ConfigKind.discovery name opts ctx => s.AddFileDiscoveryConfig name opts ctx
  | RegistryCall.add ConfigKind.reader name opts ctx => s.AddFileReaderConfig name opts ctx
  | RegistryCall.add ConfigKind.multiline name opts ctx => s.AddMultilineConfig name opts ctx
  | RegistryCall.add ConfigKind.tag name opts ctx => s.AddFileTagConfig name opts ctx
  | RegistryCall.remove ConfigKind.discovery name => s.RemoveFileDiscoveryConfig name
  | RegistryCall.remove ConfigKind.reader name => s.RemoveFileReaderConfig name
  | RegistryCall.remove ConfigKind.multiline name => s.RemoveMultilineConfig name
  | RegistryCall.remove ConfigKind.tag name => s.RemoveFileTagConfig name

/-- A sequence of calls, applied in order. -/
def calls (s : FileServer) (cs : List RegistryCall) : FileServer := cs.foldl call s

/-- The getter of a kind. -/
def get (s : FileServer) : ConfigKind → String → Option RegistryConfig
  | ConfigKind.discovery, name => s.GetFileDiscoveryConfig name
  | ConfigKind.reader, name => s.GetFileReaderConfig name
  | ConfigKind.multiline, name => s.GetMultilineConfig name
  | ConfigKind.tag, name => s.GetFileTagConfig name

end FileServer

/-- Whether a call is an add or a remove of the given kind for the given name. -/
def RegistryCall.concerns (kind : ConfigKind) (name : String) : RegistryCall → Bool
  | RegistryCall.add k n _ _ => k = kind ∧ n = name
  | RegistryCall.remove k n => k = kind ∧ n = name

/-- The specification's reading of `get(n)` after a sequence of calls: the `(opts, ctx)` of
the most recent `add(n, ..)` that has not been followed by `remove(n)`. The last call of the
kind for the name decides: an add gives its pair, a remove gives none, and without such a
call the answer is `before`, what the registry held at the start. -/
def mostRecentAdd (kind : ConfigKind) (name : String) (before : Option RegistryConfig)
    (cs : List RegistryCall) : Option RegistryConfig :=
  match cs.reverse.find? (RegistryCall.concerns kind name) with
  | some (RegistryCall.add _ _ opts ctx) => some (opts, ctx)
  | some (RegistryCall.remove _ _) => none
  | none => before
/-! ## The descriptors of `InputPrometheusUnittest` -/

/-- The `"ScrapeConfig"` of the first case of `OnSuccessfulInit` ("only mandatory param"). -/
def unittestOnlyMandatory : ScrapeConfigDescriptor :=
  { job_name := some "_arms-prom/node-exporter/0"
    metrics_path := some "/metrics"
    scheme := some "http"
    scrape_interval := some "15s"
    scrape_timeout := some "15s"
    honor_labels := none
    honor_timestamps := none
    follow_redirects := none
    max_scrape_size := none
    sample_limit := none
    series_limit := none
    relabel_configs := []
    metric_relabel_configs := []
    basic_auth := false
    authorization := false
    tls_config := false }

/-- The `"ScrapeConfig"` of the second case of `OnSuccessfulInit` ("all useful config"). -/
def unittestAllUseful : ScrapeConfigDescriptor :=
  { unittestOnlyMandatory with
    max_scrape_size := some "10MiB"
    sample_limit := some 1000000
    series_limit := some 1000000 }

/-- The `"ScrapeConfig"` of the second case of `OnFailedInit`: an empty `job_name`. -/
def unittestEmptyJobName : ScrapeConfigDescriptor :=
  { unittestOnlyMandatory with job_name := some "" }

/-- The three relabel elements that the second case of `TestCreateInnerProcessor` declares,
for `relabel_configs` and for `metric_relabel_configs` alike. -/
def unittestRelabelElements : List RelabelDescriptor :=
  [ { action := "keep"
      source_labels := ["__meta_kubernetes_pod_label_k8s_app"]
      separator := some ";"
      regex := some "kube-state-metrics"
      modulus := none
      target_label := none
      replacement := some "$1" },
    { action := "keep"
      source_labels := ["__meta_kubernetes_pod_container_port_number"]
      separator := some ";"
      regex := some "8080"
      modulus := none
      target_label := none
      replacement := some "$1" },
    { action := "replace"
      source_labels := ["__address__", "__meta_kubernetes_pod_container_port_number"]
      separator := some ";"
      regex := some "([^:]+)(?::\\d+)?;(\\d+)"
      modulus := none
      target_label := some "__address__"
      replacement := some "$1:$2" } ]

/-- The `"ScrapeConfig"` of the second case of `TestCreateInnerProcessor` ("with metric
relabel config"). -/
def unittestMetricRelabel : ScrapeConfigDescriptor :=
  { job_name := some "_kube-state-metrics"
    metrics_path := some "/metrics"
    scheme := some "http"
    scrape_interval := some "3s"
    scrape_timeout := some "3s"
    honor_labels := none
    honor_timestamps := some false
    follow_redirects := some true
    max_scrape_size := none
    sample_limit := none
    series_limit := none
    relabel_configs := unittestRelabelElements
    metric_relabel_configs := unittestRelabelElements
    basic_auth := false
    authorization := false
    tls_config := false }


/-! ## Tables -/

namespace Table

theorem find_set {β : Type} (m : Table β) (k : String) (v : β) (x : String) :
    (m.set k v).find x = if x = k then some v else m.find x := by
  induction m with
  | nil =>
      by_cases h : x = k
      · simp [set, find, h]
      · have h2 : ¬ k = x := fun e => h e.symm
        simp [set, find, h, h2]
  | cons e m ih =>
      obtain ⟨k1, v1⟩ := e
      by_cases h1 : k1 = k
      · subst h1
        by_cases h : x = k1
        · simp [set, find, h]
        · have h2 : ¬ k1 = x := fun e => h e.symm
          simp [set, find, h, h2]
      · by_cases h : k1 = x
        · subst h
          simp [set, find, h1]
        · simp [set, find, h1, h, ih]

theorem find_erase {β : Type} (m : Table β) (k : String) (x : String) :
    (m.erase k).find x = if x = k then none else m.find x := by
  induction m with
  | nil => simp [erase, find]
  | cons e m ih =>
      obtain ⟨k1, v1⟩ := e
      by_cases h1 : k1 = k
      · subst h1
        by_cases h : x = k1
        · subst h
          simpa [erase] using ih
        · have h2 : ¬ k1 = x := fun e => h e.symm
          simp [erase, find, h, h2, ih]
      · by_cases h : k1 = x
        · subst h
          simp [erase, find, h1]
        · simp [erase, find, h1, h, ih]

end Table

/-! ## Paths -/

theorem applyCheckResult_versions (dir : String) (details : List ConfigDetail) (o : FsOutcome)
    (st : Table Int × FileSystem) (r : ConfigCheckResult) :
    (applyCheckResult dir details o st r).1
      = match r.check_status with
        | CheckStatus.DELETED => st.1.erase r.name
        | CheckStatus.NEW => st.1.set r.name r.new_version
        | CheckStatus.MODIFIED => st.1.set r.name r.new_version
        | CheckStatus.UNCHANGED => st.1 := by
  unfold applyCheckResult writeConfig
  cases r.check_status <;> cases o.openOk <;> cases o.renameOk <;> cases o.removeTmpOk <;> rfl

theorem GetOneConfigServerAddress_frame (b : Bool) (rd : List Nat) (s : LegacyCommonConfigProvider)
    (a : ConfigServerAddress) (s1 : LegacyCommonConfigProvider) (rd1 : List Nat)
    (h : GetOneConfigServerAddress b rd s = some (a, s1, rd1)) :
    s1 = { s with mConfigServerAddressId := s1.mConfigServerAddressId } := by
  unfold GetOneConfigServerAddress at h
  split at h
  · simp only [Option.some.injEq, Prod.mk.injEq] at h
    rw [← h.2.1]
  · cases hp : pickAddressId b rd s with
    | none => simp [hp] at h
    | some p =>
        obtain ⟨id, rest⟩ := p
        simp only [hp] at h
        cases ha : s.mConfigServerAddresses[id]? with
        | none => simp [ha] at h
        | some a0 =>
            simp only [ha, Option.some.injEq, Prod.mk.injEq] at h
            rw [← h.2.1]

theorem GetOneConfigServerAddress_false (rd : List Nat) (s : LegacyCommonConfigProvider)
    (a : ConfigServerAddress) (s1 : LegacyCommonConfigProvider) (rd1 : List Nat)
    (h : GetOneConfigServerAddress false rd s = some (a, s1, rd1)) : s1 = s ∧ rd1 = rd := by
  unfold GetOneConfigServerAddress at h
  split at h
  · simp only [Option.some.injEq, Prod.mk.injEq] at h
    exact ⟨h.2.1.symm, h.2.2.symm⟩
  · simp only [pickAddressId, Bool.false_eq_true, if_false] at h
    cases ha : s.mConfigServerAddresses[s.mConfigServerAddressId]? with
    | none => simp [ha] at h
    | some a0 =>
        simp only [ha, Option.some.injEq, Prod.mk.injEq] at h
        exact ⟨h.2.1.symm, h.2.2.symm⟩

theorem heartBeatHttpRequest_url (env : Env) (s : LegacyCommonConfigProvider)
    (a : ConfigServerAddress) : (heartBeatHttpRequest env s a).url = "/Agent/HeartBeat" := by
  show "/Agent" ++ "/" ++ "HeartBeat" = "/Agent/HeartBeat"
  decide

/-- C3. Evaluation at the failing input: the heartbeat announces `a` as MODIFIED to version 2
and the fetch fails, once because the request cannot be sent and once because the answer
carries another request id. In both runs `GetConfigUpdate` goes on to `UpdateRemoteConfig`
with an empty detail list: the recorded version of `a` moves from 1 to 2 and `a.yaml` is
overwritten with an empty file. -/
theorem GetConfigUpdate_applies_after_failed_fetch :
    (GetConfigUpdate
        ⟨"agent", 10, "aGIx", "ZnQx",
          fun _ => some ⟨"aGIx", 0, [⟨"a", 2, CheckStatus.MODIFIED, ""⟩]⟩,
          fun _ => none, [], true, fun _ => ⟨true, true, true, true, none⟩⟩
        { fresh "conf" with
          mConfigServerAddresses := [⟨"10.0.0.1", 8080⟩]
          mConfigServerAvailable := true
          mConfigNameVersionMap := [("a", 1)] }
        [("conf/a.yaml", "inputs: [x]")]).map
        (fun c => (c.provider.mConfigNameVersionMap, c.files))
      = some ([("a", 2)], [("conf/a.yaml", "")]) ∧
    (GetConfigUpdate
        ⟨"agent", 10, "aGIx", "ZnQx",
          fun _ => some ⟨"aGIx", 0, [⟨"a", 2, CheckStatus.MODIFIED, ""⟩]⟩,
          fun _ => some ⟨"b3RoZXI=", 0, [⟨"a", "inputs: [y]"⟩]⟩, [], true,
          fun _ => ⟨true, true, true, true, none⟩⟩
        { fresh "conf" with
          mConfigServerAddresses := [⟨"10.0.0.1", 8080⟩]
          mConfigServerAvailable := true
          mConfigNameVersionMap := [("a", 1)] }
        [("conf/a.yaml", "inputs: [x]")]).map
        (fun c => (c.provider.mConfigNameVersionMap, c.files))
      = some ([("a", 2)], [("conf/a.yaml", "")]) := by
  constructor <;> decide

/-- C4. On an available provider whose heartbeat returns no check result, `GetConfigUpdate`
is the rotation `GetOneConfigServerAddress(true)` and nothing else: the only request sent is
the heartbeat (no fetch request), the file system is the one before the call, and the provider
differs from the one before the call in its current address index at most. -/
theorem GetConfigUpdate_empty_heartbeat (env : Env) (s : LegacyCommonConfigProvider)
    (fs : FileSystem) (addr : ConfigServerAddress) (s1 : LegacyCommonConfigProvider)
    (rd1 : List Nat)
    (havail : s.mConfigServerAvailable = true)
    (haddr : GetOneConfigServerAddress false env.rd s = some (addr, s1, rd1))
    (hempty : (SendHeartbeat env s1 addr).1 = []) :
    GetConfigUpdate env s fs
        = (GetOneConfigServerAddress true env.rd s).map
            (fun r => ⟨r.2.1, fs, [(SendHeartbeat env s addr).2]⟩) ∧
      ∀ c, GetConfigUpdate env s fs = some c →
        c.files = fs ∧
        c.provider = { s with mConfigServerAddressId := c.provider.mConfigServerAddressId } ∧
        c.provider.mConfigNameVersionMap = s.mConfigNameVersionMap ∧
        c.sent = [(SendHeartbeat env s addr).2] ∧
        ∀ q ∈ c.sent, q.url = "/Agent/HeartBeat" := by
  obtain ⟨hs1, hrd1⟩ := GetOneConfigServerAddress_false _ _ _ _ _ haddr
  subst hs1
  subst hrd1
  have hmain : GetConfigUpdate env s1 fs
      = (GetOneConfigServerAddress true env.rd s1).map
          (fun r => ⟨r.2.1, fs, [(SendHeartbeat env s1 addr).2]⟩) := by
    unfold GetConfigUpdate
    simp only [havail, if_true, haddr, hempty, List.length_nil, gt_iff_lt, lt_self_iff_false,
      if_false]
    cases GetOneConfigServerAddress true env.rd s1 with
    | none => rfl
    | some r => rfl
  refine ⟨hmain, ?_⟩
  intro c hc
  rw [hmain] at hc
  cases hrot : GetOneConfigServerAddress true env.rd s1 with
  | none => simp [hrot] at hc
  | some r =>
      obtain ⟨a2, s2, rd2⟩ := r
      simp only [hrot, Option.map_some', Option.some.injEq] at hc
      subst hc
      have hfr := GetOneConfigServerAddress_frame _ _ _ _ _ _ hrot
      refine ⟨rfl, hfr, ?_, rfl, ?_⟩
      · show s2.mConfigNameVersionMap = s1.mConfigNameVersionMap
        rw [hfr]
      · intro q hq
        simp only [List.mem_singleton] at hq
        subst hq
        exact heartBeatHttpRequest_url env s1 addr

/-- C4, on a concrete cycle: two addresses, the heartbeat cannot be sent, the random device
draws 3; the index moves from 0 to 1, one request (the heartbeat) is sent, map and files stay. -/
theorem GetConfigUpdate_empty_heartbeat_witness :
    (GetConfigUpdate
        ⟨"agent", 10, "aGIx", "ZnQx", fun _ => none, fun _ => none, [3], true,
          fun _ => ⟨true, true, true, true, none⟩⟩
        { fresh "conf" with
          mConfigServerAddresses := [⟨"10.0.0.1", 8080⟩, ⟨"10.0.0.2", 8080⟩]
          mConfigServerAvailable := true
          mConfigNameVersionMap := [("a", 1)] }
        [("conf/a.yaml", "inputs: [x]")]).map
        (fun c => (c.provider.mConfigServerAddressId, c.provider.mConfigNameVersionMap, c.files,
          c.sent.length))
      = some (1, [("a", 1)], [("conf/a.yaml", "inputs: [x]")], 1) := by
  rw [(GetConfigUpdate_empty_heartbeat
    ⟨"agent", 10, "aGIx", "ZnQx", fun _ => none, fun _ => none, [3], true,
      fun _ => ⟨true, true, true, true, none⟩⟩
    { fresh "conf" with
      mConfigServerAddresses := [⟨"10.0.0.1", 8080⟩, ⟨"10.0.0.2", 8080⟩]
      mConfigServerAvailable := true
      mConfigNameVersionMap := [("a", 1)] }
    [("conf/a.yaml", "inputs: [x]")] ⟨"10.0.0.1", 8080⟩ _ _ rfl rfl rfl).1]
  decide

/-- C5. Evaluation at the failing input: the answer's `request_id` is the generated one followed
by a NUL byte and more bytes. It differs from the generated `request_id`, yet `SendHeartbeat`
returns the answer's check results and `FetchPipelineConfig` returns the answer's details,
because the comparison is `strcmp` on the `c_str()`s, which stops at the first NUL. -/
theorem request_id_compared_up_to_first_NUL :
    ("aGIx\x00evil" ≠ "aGIx" ∧
      (SendHeartbeat
          ⟨"agent", 10, "aGIx", "ZnQx",
            fun _ => some ⟨"aGIx\x00evil", 0, [⟨"a", 2, CheckStatus.MODIFIED, ""⟩]⟩,
            fun _ => none, [], true, fun _ => ⟨true, true, true, true, none⟩⟩
          (fresh "conf") ⟨"10.0.0.1", 8080⟩).1
        = [⟨"a", 2, CheckStatus.MODIFIED, ""⟩]) ∧
    ("ZnQx\x00evil" ≠ "ZnQx" ∧
      (FetchPipelineConfig
          ⟨"agent", 10, "aGIx", "ZnQx", fun _ => none,
            fun _ => some ⟨"ZnQx\x00evil", 0, [⟨"a", "inputs: [y]"⟩]⟩, [], true,
            fun _ => ⟨true, true, true, true, none⟩⟩
          ⟨"10.0.0.1", 8080⟩ [⟨"a", 2, CheckStatus.MODIFIED, ""⟩]).1
        = [⟨"a", "inputs: [y]"⟩]) := by
  decide

/-! ## `GetOneConfigServerAddress` -/

theorem redraw_spec (size cur : Nat) (hsize : 0 < size) (rd : List Nat) (t : Nat) (ht : t < size)
    (t1 : Nat) (rd1 : List Nat) (h : redraw size cur t rd = some (t1, rd1)) :
    t1 < size ∧ (1 < size → t1 ≠ cur) ∧ (size ≤ 1 → t1 = t) := by
  induction rd generalizing t with
  | nil =>
      unfold redraw at h
      split at h
      · exact absurd h (by simp)
      · rename_i hc
        simp only [Option.some.injEq, Prod.mk.injEq] at h
        obtain ⟨h1, -⟩ := h
        subst h1
        exact ⟨ht, fun h1 h2 => hc ⟨h1, h2⟩, fun _ => rfl⟩
  | cons r rest ih =>
      unfold redraw at h
      split at h
      · rename_i hc
        obtain ⟨h1, h2, h3⟩ := ih (r % size) (Nat.mod_lt _ hsize) h
        exact ⟨h1, h2, fun hle => absurd hc.1 (by omega)⟩
      · rename_i hc
        simp only [Option.some.injEq, Prod.mk.injEq] at h
        obtain ⟨h1, -⟩ := h
        subst h1
        exact ⟨ht, fun h1 h2 => hc ⟨h1, h2⟩, fun _ => rfl⟩

theorem redraw_isSome (size cur : Nat) (rd : List Nat) (t : Nat)
    (h : size ≤ 1 ∨ t ≠ cur ∨ ∃ r ∈ rd, r % size ≠ cur) :
    (redraw size cur t rd).isSome = true := by
  induction rd generalizing t with
  | nil =>
      unfold redraw
      split
      · rename_i hc
        rcases h with h | h | ⟨r, hr, -⟩
        · omega
        · exact absurd hc.2 h
        · simp at hr
      · rfl
  | cons r rest ih =>
      unfold redraw
      split
      · rename_i hc
        apply ih
        rcases h with h | h | ⟨r0, hr0, hne⟩
        · omega
        · exact absurd hc.2 h
        · rcases List.mem_cons.1 hr0 with e | e
          · subst e
            exact Or.inr (Or.inl hne)
          · exact Or.inr (Or.inr ⟨r0, e, hne⟩)
      · rfl

theorem GetOneConfigServerAddress_true_spec (s : LegacyCommonConfigProvider)
    (hne : s.mConfigServerAddresses ≠ [])
    (hid : s.mConfigServerAddressId < s.mConfigServerAddresses.length)
    (rd : List Nat) (a : ConfigServerAddress) (s1 : LegacyCommonConfigProvider) (rd1 : List Nat)
    (h : GetOneConfigServerAddress true rd s = some (a, s1, rd1)) :
    s1.mConfigServerAddresses = s.mConfigServerAddresses ∧
      s1.mConfigServerAddressId < s.mConfigServerAddresses.length ∧
      (s1.mConfigServerAddressId ≠ s.mConfigServerAddressId
        ↔ 2 ≤ s.mConfigServerAddresses.length) ∧
      s.mConfigServerAddresses[s1.mConfigServerAddressId]? = some a := by
  have hlen : 0 < s.mConfigServerAddresses.length := List.length_pos.2 hne
  have hfr := GetOneConfigServerAddress_frame _ _ _ _ _ _ h
  unfold GetOneConfigServerAddress at h
  rw [if_neg (by omega)] at h
  cases hp : pickAddressId true rd s with
  | none => simp [hp] at h
  | some p =>
      obtain ⟨id, rest⟩ := p
      simp only [hp] at h
      cases ha : s.mConfigServerAddresses[id]? with
      | none => simp [ha] at h
      | some a0 =>
          simp only [ha, Option.some.injEq, Prod.mk.injEq] at h
          obtain ⟨h1, h2, -⟩ := h
          have hid1 : s1.mConfigServerAddressId = id := by rw [← h2]
          have ha1 : a = a0 := by rw [← h1]
          simp only [pickAddressId, if_true] at hp
          cases rd with
          | nil => simp at hp
          | cons r rest0 =>
              simp only at hp
              obtain ⟨g1, g2, g3⟩ := redraw_spec _ _ hlen rest0 _ (Nat.mod_lt _ hlen) _ _ hp
              refine ⟨by rw [hfr], by omega, ?_, by rw [hid1, ha, ha1]⟩
              rw [hid1]
              constructor
              · intro hne1
                by_contra hlt
                have h1 : s.mConfigServerAddresses.length ≤ 1 := by omega
                have := g3 h1
                have : r % s.mConfigServerAddresses.length < 1 := by
                  have := Nat.mod_lt r hlen
                  omega
                omega
              · intro h2 hEq
                exact g2 (by omega) hEq

/-- C6. With a non-empty address list and the current index inside it, every call of
`GetOneConfigServerAddress(true)` that returns leaves the address list as it was and a current
index inside the list, returns the address at that index, and the index differs from the one
before the call exactly when the list has at least 2 addresses. Hence a second call that
returns gives a different index when there are at least 2 addresses, and the same index and
address when there is one. The call does return as soon as the random device draws a value
that picks another index, or draws at all when the list has a single address. -/
theorem GetOneConfigServerAddress_rotates (s : LegacyCommonConfigProvider)
    (hne : s.mConfigServerAddresses ≠ [])
    (hid : s.mConfigServerAddressId < s.mConfigServerAddresses.length) :
    (∀ rd a s1 rd1, GetOneConfigServerAddress true rd s = some (a, s1, rd1) →
      s1.mConfigServerAddresses = s.mConfigServerAddresses ∧
      s1.mConfigServerAddressId < s1.mConfigServerAddresses.length ∧
      (s1.mConfigServerAddressId ≠ s.mConfigServerAddressId
        ↔ 2 ≤ s.mConfigServerAddresses.length) ∧
      s.mConfigServerAddresses[s1.mConfigServerAddressId]? = some a ∧
      ∀ a2 s2 rd2, GetOneConfigServerAddress true rd1 s1 = some (a2, s2, rd2) →
        (2 ≤ s.mConfigServerAddresses.length →
          s2.mConfigServerAddressId ≠ s1.mConfigServerAddressId) ∧
        (s.mConfigServerAddresses.length = 1 →
          s2.mConfigServerAddressId = s1.mConfigServerAddressId ∧ a2 = a)) ∧
    (∀ rd : List Nat,
      ((∃ r ∈ rd, r % s.mConfigServerAddresses.length ≠ s.mConfigServerAddressId) ∨
        (s.mConfigServerAddresses.length = 1 ∧ rd ≠ [])) →
      (GetOneConfigServerAddress true rd s).isSome = true) := by
  constructor
  · intro rd a s1 rd1 h
    obtain ⟨h1, h2, h3, h4⟩ := GetOneConfigServerAddress_true_spec s hne hid rd a s1 rd1 h
    refine ⟨h1, by rw [h1]; exact h2, h3, h4, ?_⟩
    intro a2 s2 rd2 hsecond
    obtain ⟨k1, k2, k3, k4⟩ := GetOneConfigServerAddress_true_spec s1 (by rw [h1]; exact hne)
      (by rw [h1]; exact h2) rd1 a2 s2 rd2 hsecond
    rw [h1] at k3 k4 k2
    refine ⟨fun hlen => k3.2 hlen, fun hlen => ?_⟩
    have e : s2.mConfigServerAddressId = s1.mConfigServerAddressId := by omega
    refine ⟨e, ?_⟩
    rw [e, h4] at k4
    exact (Option.some.inj k4).symm
  · intro rd hrd
    have hlen : 0 < s.mConfigServerAddresses.length := List.length_pos.2 hne
    unfold GetOneConfigServerAddress
    rw [if_neg (by omega)]
    cases rd with
    | nil =>
        rcases hrd with ⟨r, hr, -⟩ | ⟨-, h⟩
        · simp at hr
        · exact absurd rfl h
    | cons r rest =>
        have hsome : (redraw s.mConfigServerAddresses.length s.mConfigServerAddressId
            (r % s.mConfigServerAddresses.length) rest).isSome = true := by
          apply redraw_isSome
          rcases hrd with ⟨r0, hr0, hne0⟩ | ⟨h1, -⟩
          · rcases List.mem_cons.1 hr0 with e | e
            · subst e
              exact Or.inr (Or.inl hne0)
            · exact Or.inr (Or.inr ⟨r0, e, hne0⟩)
          · exact Or.inl (by omega)
        cases hp : redraw s.mConfigServerAddresses.length s.mConfigServerAddressId
            (r % s.mConfigServerAddresses.length) rest with
        | none => simp [hp] at hsome
        | some p =>
            obtain ⟨id, rest1⟩ := p
            obtain ⟨g1, -, -⟩ := redraw_spec _ _ hlen rest _ (Nat.mod_lt _ hlen) _ _ hp
            simp only [pickAddressId, if_true, hp]
            rw [List.getElem?_eq_getElem g1]
            rfl

/-- C6, on concrete calls: with three addresses and current index 0 the draws 3, 6, 7 are
consumed up to 7 (3 and 6 pick index 0 again) and the call moves to index 1; with the one
address of a single-address list every draw returns that address. -/
theorem GetOneConfigServerAddress_rotates_witness :
    (GetOneConfigServerAddress true [3, 6, 7, 9]
        { fresh "conf" with
          mConfigServerAddresses :=
            [⟨"10.0.0.1", 80⟩, ⟨"10.0.0.2", 80⟩, ⟨"10.0.0.3", 80⟩] }).isSome
      = true ∧
    (GetOneConfigServerAddress true [3, 6, 7, 9]
        { fresh "conf" with
          mConfigServerAddresses :=
            [⟨"10.0.0.1", 80⟩, ⟨"10.0.0.2", 80⟩, ⟨"10.0.0.3", 80⟩] }).map
        (fun r => (r.1, r.2.1.mConfigServerAddressId, r.2.2))
      = some (⟨"10.0.0.2", 80⟩, 1, [9]) ∧
    (GetOneConfigServerAddress true [5]
        { fresh "conf" with mConfigServerAddresses := [⟨"10.0.0.1", 80⟩] }).map
        (fun r => (r.1, r.2.1.mConfigServerAddressId))
      = some (⟨"10.0.0.1", 80⟩, 0) :=
  ⟨(GetOneConfigServerAddress_rotates
      { fresh "conf" with
        mConfigServerAddresses :=
          [⟨"10.0.0.1", 80⟩, ⟨"10.0.0.2", 80⟩, ⟨"10.0.0.3", 80⟩] }
      (by decide) (by decide)).2 [3, 6, 7, 9] (Or.inl ⟨7, by decide, by decide⟩),
    by decide, by decide⟩

/-! ## `Init` -/

theorem foldl_tags_frame (members : List (String × String)) (s : LegacyCommonConfigProvider) :
    (members.foldl (fun t kv => { t with mConfigServerTags := t.mConfigServerTags ++ [kv.2] })
        s).mConfigServerAddresses = s.mConfigServerAddresses ∧
      (members.foldl (fun t kv => { t with mConfigServerTags := t.mConfigServerTags ++ [kv.2] })
        s).mConfigServerAvailable = s.mConfigServerAvailable := by
  induction members generalizing s with
  | nil => exact ⟨rfl, rfl⟩
  | cons kv ms ih =>
      simp only [List.foldl_cons]
      exact ⟨(ih _).1, (ih _).2⟩

theorem Init_frame (confJson : AgentConfig) (s : LegacyCommonConfigProvider) :
    (Init confJson s).mConfigServerAddresses
        = (match confJson.ilogtail_configserver_address with
            | some entries => (entries.foldl addConfigServerAddress s).mConfigServerAddresses
            | none => s.mConfigServerAddresses) ∧
      (Init confJson s).mConfigServerAvailable
        = (match confJson.ilogtail_configserver_address with
            | some _ => true
            | none => s.mConfigServerAvailable) := by
  unfold Init
  cases confJson.ilogtail_tags with
  | none => cases confJson.ilogtail_configserver_address <;> exact ⟨rfl, rfl⟩
  | some members =>
      cases confJson.ilogtail_configserver_address with
      | none => exact foldl_tags_frame members _
      | some entries => exact foldl_tags_frame members _

theorem foldl_addConfigServerAddress (entries : List String) (s : LegacyCommonConfigProvider) :
    (entries.foldl addConfigServerAddress s).mConfigServerAddresses
      = s.mConfigServerAddresses ++ entries.filterMap (fun e =>
          match SplitString (TrimString e) ':' with
          | [host, portPart] =>
              if 1 ≤ atoi (c_str portPart) ∧ atoi (c_str portPart) ≤ 65535 then
                some (⟨host, atoi (c_str portPart)⟩ : ConfigServerAddress)
              else none
          | _ => none) := by
  induction entries generalizing s with
  | nil => simp
  | cons e es ih =>
      simp only [List.foldl_cons, List.filterMap_cons]
      rw [ih]
      unfold addConfigServerAddress
      split
      · rename_i host portPart hsplit
        by_cases hr : 1 ≤ atoi (c_str portPart) ∧ atoi (c_str portPart) ≤ 65535
        · have hr2 : ¬ (atoi (c_str portPart) < 1 ∨ atoi (c_str portPart) > 65535) := by omega
          simp [hr, hr2]
        · have hr2 : atoi (c_str portPart) < 1 ∨ atoi (c_str portPart) > 65535 := by omega
          simp [hr, hr2]
      · rfl

/-- C7, as stated, fails: an address array holding only malformed entries leaves the address
list empty and the provider marked available. -/
theorem Init_available_without_valid_address :
    (Init ⟨some ["10.0.0.2:badport", "10.0.0.3:0", "nocolon"], none⟩
        (fresh "conf")).mConfigServerAddresses = [] ∧
      (Init ⟨some ["10.0.0.2:badport", "10.0.0.3:0", "nocolon"], none⟩
        (fresh "conf")).mConfigServerAvailable = true := by
  decide

/-- C7, amended. After `Init` on a newly constructed provider, the provider is marked
available if and only if the agent configuration has an `ilogtail_configserver_address`
member that is an array, whatever its entries parse to. -/
theorem Init_available_iff_address_array (confJson : AgentConfig) (dir : String) :
    (Init confJson (fresh dir)).mConfigServerAvailable = true
      ↔ confJson.ilogtail_configserver_address ≠ none := by
  rw [(Init_frame confJson (fresh dir)).2]
  cases confJson.ilogtail_configserver_address with
  | none => simp [fresh]
  | some entries => simp

/-- C8. Evaluation at the failing input: `Init` on an address array without a valid entry
leaves the provider available with an empty address list. `GetOneConfigServerAddress` then
returns the sentinel `("", -1)` for either flag, and `GetConfigUpdate` does not skip the cycle:
it hands `SendHttpRequest` a heartbeat request for host `""`, port `-1`. -/
theorem GetConfigUpdate_sends_heartbeat_to_sentinel :
    (GetOneConfigServerAddress false [4]
        (Init ⟨some ["10.0.0.2:badport"], none⟩ (fresh "conf"))).map (fun r => r.1)
      = some ⟨"", -1⟩ ∧
    (GetOneConfigServerAddress true [4]
        (Init ⟨some ["10.0.0.2:badport"], none⟩ (fresh "conf"))).map (fun r => r.1)
      = some ⟨"", -1⟩ ∧
    (GetConfigUpdate
        ⟨"agent", 10, "aGIx", "ZnQx", fun _ => none, fun _ => none, [4], true,
          fun _ => ⟨true, true, true, true, none⟩⟩
        (Init ⟨some ["10.0.0.2:badport"], none⟩ (fresh "conf")) []).map
        (fun c => c.sent.map (fun q => (q.host, q.port, q.url)))
      = some [("", -1, "/Agent/HeartBeat")] := by
  decide

/-- C9, as stated, fails: the port part `80x` is not numeric, yet the entry is retained, with
port 80; and the port part `4294967376` is above 65535, yet the entry is retained, with port
80, the value of the numeral reduced to the 32 bits of an `int`. -/
theorem Init_retains_port_with_trailing_text :
    portPartIsNumeric "80x" = false ∧
      SplitString (TrimString "10.0.0.2:80x") ':' = ["10.0.0.2", "80x"] ∧
      (Init ⟨some ["10.0.0.2:80x"], none⟩ (fresh "conf")).mConfigServerAddresses
        = [⟨"10.0.0.2", 80⟩] ∧
      portPartIsNumeric "4294967376" = true ∧
      SplitString (TrimString "10.0.0.9:4294967376") ':' = ["10.0.0.9", "4294967376"] ∧
      (Init ⟨some ["10.0.0.9:4294967376"], none⟩ (fresh "conf")).mConfigServerAddresses
        = [⟨"10.0.0.9", 80⟩] := by
  decide

theorem Init_addresses_eq_filterMap (entries : List String)
    (tags : Option (List (String × String))) (dir : String) :
    (Init ⟨some entries, tags⟩ (fresh dir)).mConfigServerAddresses
      = entries.filterMap (fun e =>
          match SplitString (TrimString e) ':' with
          | [host, portPart] =>
              if 1 ≤ atoi (c_str portPart) ∧ atoi (c_str portPart) ≤ 65535 then
                some (⟨host, atoi (c_str portPart)⟩ : ConfigServerAddress)
              else none
          | _ => none) := by
  rw [(Init_frame ⟨some entries, tags⟩ (fresh dir)).1]
  simp only [foldl_addConfigServerAddress]
  simp [fresh]

/-- C9, amended. The address list built by `Init` holds, in declared order, exactly the
entries that split into a host and a port part whose value as `atoi` reads it (the leading
signed decimal number after white space, 0 when there is none, limited to the range of a
`long` and then reduced to the 32 bits of an `int`) lies in 1..65535, each with that host and
that value as port; every other entry is skipped, and every retained address has
`1 ≤ port ≤ 65535`. -/
theorem Init_retains_ports_in_range (entries : List String)
    (tags : Option (List (String × String))) (dir : String) :
    (Init ⟨some entries, tags⟩ (fresh dir)).mConfigServerAddresses
        = entries.filterMap (fun e =>
            match SplitString (TrimString e) ':' with
            | [host, portPart] =>
                if 1 ≤ atoi (c_str portPart) ∧ atoi (c_str portPart) ≤ 65535 then
                  some (⟨host, atoi (c_str portPart)⟩ : ConfigServerAddress)
                else none
            | _ => none) ∧
      ∀ a ∈ (Init ⟨some entries, tags⟩ (fresh dir)).mConfigServerAddresses,
        1 ≤ a.port ∧ a.port ≤ 65535 := by
  have h := Init_addresses_eq_filterMap entries tags dir
  refine ⟨h, ?_⟩
  intro a ha
  rw [h, List.mem_filterMap] at ha
  obtain ⟨e, -, he⟩ := ha
  split at he
  · split at he
    · rename_i hr
      simp only [Option.some.injEq] at he
      subst he
      exact hr
    · exact absurd he (by simp)
  · exact absurd he (by simp)

/-- Scenario S1 of the specification: of `10.0.0.1:8080`, `10.0.0.2:badport` and `10.0.0.3:0`
only the first is retained. -/
theorem Init_scenario_S1 :
    (Init ⟨some ["10.0.0.1:8080", "10.0.0.2:badport", "10.0.0.3:0"], none⟩
        (fresh "conf")).mConfigServerAddresses = [⟨"10.0.0.1", 8080⟩] := by
  decide

/-- Port parts that read as a negative number or as a number between 65536 and the end of
`int` are skipped: of `10.0.0.4:-5`, `10.0.0.5:70000` and `10.0.0.6:443` only the last is
retained. -/
theorem Init_skips_ports_out_of_range :
    (Init ⟨some ["10.0.0.4:-5", "10.0.0.5:70000", "10.0.0.6:443"], none⟩
        (fresh "conf")).mConfigServerAddresses = [⟨"10.0.0.6", 443⟩] := by
  decide

/-! ## `Init`: where an entry is split -/

theorem takeWhile_dropWhile_append {α : Type} (p : α → Bool) (l1 : List α) (x : α)
    (l2 : List α)
    (h1 : ∀ c ∈ l1, p c = true) (hx : p x = false) :
    (l1 ++ x :: l2).takeWhile p = l1 ∧ (l1 ++ x :: l2).dropWhile p = x :: l2 := by
  induction l1 with
  | nil => simp [List.takeWhile, List.dropWhile, hx]
  | cons c cs ih =>
      have hc : p c = true := h1 c (by simp)
      have := ih (fun d hd => h1 d (by simp [hd]))
      simp [List.takeWhile, List.dropWhile, hc, this.1, this.2]

theorem SplitString_last (host port : String) (delim : Char)
    (hport : ∀ c ∈ port.data, c ≠ delim) :
    SplitString (host ++ String.singleton delim ++ port) delim = [host, port] := by
  have hl : (host ++ String.singleton delim ++ port).toList.reverse
      = port.data.reverse ++ delim :: host.data.reverse := by
    simp [String.toList, String.data_append, String.singleton]
  have hsplit := takeWhile_dropWhile_append (fun c => decide (c ≠ delim)) port.data.reverse delim
    host.data.reverse (fun c hc => by simpa using hport c (List.mem_reverse.1 hc)) (by simp)
  unfold SplitString
  rw [hl, hsplit.1, hsplit.2]
  simp

theorem digitsValue_eq_foldl (cs : List Char) (hcs : ∀ c ∈ cs, c.isDigit = true) (acc : Nat) :
    digitsValue acc cs = cs.foldl (fun n c => n * 10 + (c.toNat - '0'.toNat)) acc := by
  induction cs generalizing acc with
  | nil => rfl
  | cons c cs ih =>
      have hc : c.isDigit = true := hcs c (by simp)
      simp only [digitsValue, hc, if_true, List.foldl_cons]
      rw [ih (fun d hd => hcs d (by simp [hd]))]
      rfl

theorem c_str_of_digits (port : String) (hdig : ∀ c ∈ port.data, c.isDigit = true) :
    c_str port = port.data := by
  unfold c_str
  show port.data.takeWhile _ = port.data
  rw [List.takeWhile_eq_self_iff]
  intro c hc
  have hne : c ≠ '\x00' := fun e => by
    subst e
    exact absurd (hdig _ hc) (by decide)
  simpa using hne

theorem atoi_of_toNat (port : String) (p : Nat) (h : port.toNat? = some p) (hp : p ≤ 65535) :
    atoi (c_str port) = (p : Int) ∧ ∀ c ∈ port.data, c.isDigit = true := by
  unfold String.toNat? at h
  split at h
  · rename_i hnat
    simp only [String.isNat, Bool.and_eq_true, Bool.not_eq_true', String.all_eq,
      List.all_eq_true] at hnat
    simp only [Option.some.injEq, String.foldl_eq] at h
    obtain ⟨hne, hdig⟩ := hnat
    refine ⟨?_, hdig⟩
    have hval := digitsValue_eq_foldl port.data hdig 0
    rw [h] at hval
    rw [c_str_of_digits port hdig]
    unfold atoi strtol
    cases hd : port.data with
    | nil =>
        exfalso
        have : port = "" := String.ext hd
        subst this
        simp [String.isEmpty] at hne
    | cons c cs =>
        have hc : c.isDigit = true := hdig c (by simp [hd])
        have hsp : isspace c = false := by
          cases hs : isspace c with
          | false => rfl
          | true =>
              simp only [isspace, Bool.or_eq_true, decide_eq_true_eq] at hs
              rcases hs with ((((hs | hs) | hs) | hs) | hs) | hs <;>
                (subst hs; exact absurd hc (by decide))
        have hdrop : (c :: cs).dropWhile isspace = c :: cs := by
          simp [List.dropWhile, hsp]
        rw [hdrop]
        rw [hd] at hval
        split
        · rename_i heq
          simp only [List.cons.injEq] at heq
          obtain ⟨hmin, -⟩ := heq
          subst hmin
          exact absurd hc (by decide)
        · rename_i heq
          simp only [List.cons.injEq] at heq
          obtain ⟨hpl, -⟩ := heq
          subst hpl
          exact absurd hc (by decide)
        · rw [hval]
          unfold toInt32
          omega
  · exact absurd h (by simp)

/-- C10. With the entry split on its last `:` only, every entry that trims to `<host>:<port>`,
where `<port>` is the decimal numeral of an integer in 1..65535 and `<host>` may itself hold
`:` characters, splits into `<host>` and `<port>` and is retained with host `<host>` and that
integer as port. -/
theorem Init_splits_on_last_colon (entries : List String)
    (tags : Option (List (String × String))) (dir : String) (e host port : String) (p : Nat)
    (he : e ∈ entries) (htrim : TrimString e = host ++ ":" ++ port)
    (hport : port.toNat? = some p) (hrange : 1 ≤ p ∧ p ≤ 65535) :
    SplitString (TrimString e) ':' = [host, port] ∧
      (⟨host, (p : Int)⟩ : ConfigServerAddress)
        ∈ (Init ⟨some entries, tags⟩ (fresh dir)).mConfigServerAddresses := by
  obtain ⟨hatoi, hdig⟩ := atoi_of_toNat port p hport hrange.2
  have hsplit : SplitString (TrimString e) ':' = [host, port] := by
    rw [htrim]
    exact SplitString_last host port ':' (fun c hc hcolon => by
      subst hcolon
      exact absurd (hdig _ hc) (by decide))
  refine ⟨hsplit, ?_⟩
  rw [(Init_addresses_eq_filterMap entries tags dir), List.mem_filterMap]
  refine ⟨e, he, ?_⟩
  simp only [hsplit, hatoi]
  have hr : (1 : Int) ≤ (p : Int) ∧ (p : Int) ≤ 65535 := by omega
  simp [hr]

/-- C10, on a concrete array: the entry ` fe80::1:8080 ` trims to the host `fe80::1`, which
holds three `:` characters, and the port 8080. -/
theorem Init_splits_on_last_colon_witness :
    SplitString (TrimString " fe80::1:8080 ") ':' = ["fe80::1", "8080"] ∧
      (⟨"fe80::1", 8080⟩ : ConfigServerAddress)
        ∈ (Init ⟨some ["10.0.0.1:80", " fe80::1:8080 "], none⟩
            (fresh "conf")).mConfigServerAddresses :=
  Init_splits_on_last_colon ["10.0.0.1:80", " fe80::1:8080 "] none "conf" " fe80::1:8080 "
    "fe80::1" "8080" 8080 (by decide) (by decide)
    (by simp [String.toNat?, String.isNat, String.all_eq, String.foldl_eq, String.isEmpty]; decide)
    (by decide)

/-! ## Supporting facts on the request-id test, the inner guard and the sentinel -/

theorem toNat_eq_zero (c : Char) (h : c.toNat = 0) : c = '\x00' := by
  have := Char.ofNat_toNat c
  rw [h] at this
  exact this.symm

theorem toNat_inj (a b : Char) (h : a.toNat = b.toNat) : a = b := by
  have ha := Char.ofNat_toNat a
  rw [h, Char.ofNat_toNat] at ha
  exact ha.symm

theorem strcmp_eq_zero_iff (a b : List Char) (ha : ∀ c ∈ a, c ≠ '\x00')
    (hb : ∀ c ∈ b, c ≠ '\x00') : strcmp a b = 0 ↔ a = b := by
  induction a generalizing b with
  | nil =>
      cases b with
      | nil => simp [strcmp]
      | cons y ys =>
          have hy : y.toNat ≠ 0 := fun e => hb y (by simp) (toNat_eq_zero y e)
          simp only [strcmp, neg_eq_zero, Nat.cast_eq_zero, hy, false_iff]
          exact fun e => by cases e
  | cons x xs ih =>
      cases b with
      | nil =>
          have hx : x.toNat ≠ 0 := fun e => ha x (by simp) (toNat_eq_zero x e)
          simp only [strcmp, Nat.cast_eq_zero, hx, false_iff]
          exact fun e => by cases e
      | cons y ys =>
          by_cases hxy : x = y
          · subst hxy
            simp only [strcmp, if_true, List.cons.injEq, true_and]
            exact ih ys (fun c hc => ha c (by simp [hc])) (fun c hc => hb c (by simp [hc]))
          · have hne : (x.toNat : Int) - (y.toNat : Int) ≠ 0 := by
              intro e
              have : x.toNat = y.toNat := by omega
              exact hxy (toNat_inj x y this)
            simp [strcmp, hxy, hne]

theorem c_str_no_NUL (s : String) : ∀ c ∈ c_str s, c ≠ '\x00' := by
  intro c hc
  have := List.mem_takeWhile_imp hc
  simpa using this

/-- What `SendHeartbeat` returns: the answer's check results when the request was sent and the
two request ids agree up to their first NUL byte, nothing otherwise. -/
theorem SendHeartbeat_results (env : Env) (s : LegacyCommonConfigProvider)
    (a : ConfigServerAddress) :
    (SendHeartbeat env s a).1
      = match env.sendHeartBeat (heartBeatHttpRequest env s a) with
        | none => []
        | some resp =>
            if c_str resp.request_id = c_str env.heartbeatRequestID then
              resp.pipeline_check_results
            else [] := by
  unfold SendHeartbeat
  cases env.sendHeartBeat (heartBeatHttpRequest env s a) with
  | none => rfl
  | some resp =>
      have h := strcmp_eq_zero_iff (c_str resp.request_id) (c_str env.heartbeatRequestID)
        (c_str_no_NUL _) (c_str_no_NUL _)
      by_cases e : c_str resp.request_id = c_str env.heartbeatRequestID
      · have z : strcmp (c_str resp.request_id) (c_str env.heartbeatRequestID) = 0 := h.2 e
        show (if _ then _ else _) = (if _ then _ else _)
        rw [if_neg (not_not.2 z), if_pos e]
      · have : strcmp (c_str resp.request_id) (c_str env.heartbeatRequestID) ≠ 0 :=
          fun z => e (h.1 z)
        simp [e, this]

/-- What `FetchPipelineConfig` returns: the answer's details when the request was sent and the
two request ids agree up to their first NUL byte, nothing otherwise. -/
theorem FetchPipelineConfig_results (env : Env) (a : ConfigServerAddress)
    (requestConfigs : List ConfigCheckResult) :
    (FetchPipelineConfig env a requestConfigs).1
      = match env.sendFetch (fetchHttpRequest env a requestConfigs) with
        | none => []
        | some resp =>
            if c_str resp.request_id = c_str env.fetchRequestID then resp.config_details
            else [] := by
  unfold FetchPipelineConfig
  cases env.sendFetch (fetchHttpRequest env a requestConfigs) with
  | none => rfl
  | some resp =>
      have h := strcmp_eq_zero_iff (c_str resp.request_id) (c_str env.fetchRequestID)
        (c_str_no_NUL _) (c_str_no_NUL _)
      by_cases e : c_str resp.request_id = c_str env.fetchRequestID
      · have z : strcmp (c_str resp.request_id) (c_str env.fetchRequestID) = 0 := h.2 e
        show (if _ then _ else _) = (if _ then _ else _)
        rw [if_neg (not_not.2 z), if_pos e]
      · have : strcmp (c_str resp.request_id) (c_str env.fetchRequestID) ≠ 0 :=
          fun z => e (h.1 z)
        simp [e, this]

/-- Once the heartbeat has returned a check result, `GetConfigUpdate` runs
`UpdateRemoteConfig` on whatever `FetchPipelineConfig` returned: the test between the two
looks at the check results again, not at the details. -/
theorem GetConfigUpdate_of_check_results (env : Env) (s : LegacyCommonConfigProvider)
    (fs : FileSystem) (addr : ConfigServerAddress)
    (havail : s.mConfigServerAvailable = true)
    (haddr : GetOneConfigServerAddress false env.rd s = some (addr, s, env.rd))
    (hres : (SendHeartbeat env s addr).1 ≠ []) :
    GetConfigUpdate env s fs
      = some ⟨(UpdateRemoteConfig env.mkdirOk env.outcomes (SendHeartbeat env s addr).1
                (FetchPipelineConfig env addr (SendHeartbeat env s addr).1).1 s fs).1,
              (UpdateRemoteConfig env.mkdirOk env.outcomes (SendHeartbeat env s addr).1
                (FetchPipelineConfig env addr (SendHeartbeat env s addr).1).1 s fs).2,
              [(SendHeartbeat env s addr).2,
                (FetchPipelineConfig env addr (SendHeartbeat env s addr).1).2]⟩ := by
  have hlen : (SendHeartbeat env s addr).1.length > 0 := List.length_pos.2 hres
  unfold GetConfigUpdate
  simp only [havail, if_true, haddr, hlen]

/-- With no address in the list, `GetOneConfigServerAddress` returns the sentinel `("", -1)`
for either value of the flag, draws nothing and changes nothing. -/
theorem GetOneConfigServerAddress_empty (b : Bool) (rd : List Nat)
    (s : LegacyCommonConfigProvider) (h : s.mConfigServerAddresses = []) :
    GetOneConfigServerAddress b rd s = some (⟨"", -1⟩, s, rd) := by
  simp [GetOneConfigServerAddress, h]

/-! ## `FetchPipelineConfig`: the request -/

theorem fetchConfigInfos_eq_filter_map (rs : List ConfigCheckResult) :
    fetchConfigInfos rs
      = (rs.filter (fun r => decide (r.check_status ≠ CheckStatus.DELETED))).map
          (fun r =>
            (⟨ConfigType.PIPELINE_CONFIG, r.name, r.new_version, r.context⟩ : ConfigInfo)) := by
  induction rs with
  | nil => rfl
  | cons r rs ih =>
      by_cases h : r.check_status = CheckStatus.DELETED
      · simp [fetchConfigInfos, h, ih]
      · simp [fetchConfigInfos, h, ih]

/-- C11. The `req_configs` of the request that `FetchPipelineConfig` sends are the check results
whose status is not DELETED, in their original order, each as a `ConfigInfo` of type
`PIPELINE_CONFIG` with the result's name, its `new_version` as version and its context: every
requested entry comes from a result that is not DELETED, and every such result is requested. -/
theorem FetchPipelineConfig_req_configs (env : Env) (addr : ConfigServerAddress)
    (requestConfigs : List ConfigCheckResult) :
    (FetchPipelineConfig env addr requestConfigs).2.body
        = RequestBody.fetchPipelineConfig
            ⟨env.fetchRequestID, env.instanceId,
              (requestConfigs.filter (fun r => decide (r.check_status ≠ CheckStatus.DELETED))).map
                (fun r => ⟨ConfigType.PIPELINE_CONFIG, r.name, r.new_version, r.context⟩)⟩ ∧
      (∀ info ∈ fetchConfigInfos requestConfigs, ∃ r ∈ requestConfigs,
        r.check_status ≠ CheckStatus.DELETED ∧
          info = ⟨ConfigType.PIPELINE_CONFIG, r.name, r.new_version, r.context⟩) ∧
      (∀ r ∈ requestConfigs, r.check_status ≠ CheckStatus.DELETED →
        (⟨ConfigType.PIPELINE_CONFIG, r.name, r.new_version, r.context⟩ : ConfigInfo)
          ∈ fetchConfigInfos requestConfigs) := by
  refine ⟨?_, ?_, ?_⟩
  · show RequestBody.fetchPipelineConfig
        ⟨env.fetchRequestID, env.instanceId, fetchConfigInfos requestConfigs⟩ = _
    rw [fetchConfigInfos_eq_filter_map]
  · intro info hinfo
    rw [fetchConfigInfos_eq_filter_map, List.mem_map] at hinfo
    obtain ⟨r, hr, rfl⟩ := hinfo
    rw [List.mem_filter] at hr
    exact ⟨r, hr.1, by simpa using hr.2, rfl⟩
  · intro r hr hs
    rw [fetchConfigInfos_eq_filter_map, List.mem_map]
    exact ⟨r, List.mem_filter.2 ⟨hr, by simpa using hs⟩, rfl⟩

/-! ## `UpdateRemoteConfig`: a directory that cannot be created -/

theorem GetConfigUpdates_unavailable (envs : List Env) (s : LegacyCommonConfigProvider)
    (fs : FileSystem) (h : s.mConfigServerAvailable = false) :
    GetConfigUpdates envs s fs = some ⟨s, fs, []⟩ := by
  induction envs with
  | nil => rfl
  | cons env envs ih =>
      have h1 : GetConfigUpdate env s fs = some ⟨s, fs, []⟩ := by
        simp [GetConfigUpdate, h]
      simp [GetConfigUpdates, h1, ih]

/-- C12. When the directory cannot be created, `UpdateRemoteConfig` applies no check result
(the version map and the file system are the ones before the call) and leaves the provider
marked unavailable; every later call of `GetConfigUpdate`, and so every sequence of them,
returns with the provider and the file system it was given and without a request sent. -/
theorem UpdateRemoteConfig_directory_failure (outcomes : Nat → FsOutcome)
    (checkResults : List ConfigCheckResult) (configDetails : List ConfigDetail)
    (s : LegacyCommonConfigProvider) (fs : FileSystem) :
    (UpdateRemoteConfig false outcomes checkResults configDetails s fs).2 = fs ∧
      (UpdateRemoteConfig false outcomes checkResults configDetails s fs).1
        = { s with mConfigServerAvailable := false } ∧
      (∀ (env : Env) (later : FileSystem),
        GetConfigUpdate env
            (UpdateRemoteConfig false outcomes checkResults configDetails s fs).1 later
          = some ⟨(UpdateRemoteConfig false outcomes checkResults configDetails s fs).1,
              later, []⟩) ∧
      (∀ (envs : List Env) (later : FileSystem),
        GetConfigUpdates envs
            (UpdateRemoteConfig false outcomes checkResults configDetails s fs).1 later
          = some ⟨(UpdateRemoteConfig false outcomes checkResults configDetails s fs).1,
              later, []⟩) := by
  have h : UpdateRemoteConfig false outcomes checkResults configDetails s fs
      = ({ s with mConfigServerAvailable := false }, fs) := by
    simp [UpdateRemoteConfig, StopUsingConfigServer]
  rw [h]
  refine ⟨rfl, rfl, ?_, ?_⟩
  · intro env later
    simp [GetConfigUpdate]
  · intro envs later
    exact GetConfigUpdates_unavailable envs _ later rfl


/-! ## `UpdateRemoteConfig`: versions, frame and temporary files -/

theorem updateLoop_version_source (dir : String) (details : List ConfigDetail)
    (outcomes : Nat → FsOutcome) (n : String) (v : Int) (rs : List ConfigCheckResult) (i : Nat)
    (st : Table Int × FileSystem)
    (h : (updateLoop dir details outcomes i rs st).1.find n = some v) :
    st.1.find n = some v ∨
      ∃ r ∈ rs, r.name = n ∧
        (r.check_status = CheckStatus.NEW ∨ r.check_status = CheckStatus.MODIFIED) ∧
        r.new_version = v := by
  induction rs generalizing i st with
  | nil => exact Or.inl h
  | cons r rs ih =>
      simp only [updateLoop] at h
      rcases ih (i + 1) _ h with h1 | ⟨r1, hr1, hrest⟩
      · rw [applyCheckResult_versions] at h1
        cases hs : r.check_status with
        | DELETED =>
            simp only [hs, Table.find_erase] at h1
            split at h1
            · exact absurd h1 (by simp)
            · exact Or.inl h1
        | NEW =>
            simp only [hs, Table.find_set] at h1
            split at h1
            · rename_i hn
              exact Or.inr ⟨r, by simp, hn.symm, Or.inl hs, Option.some.inj h1⟩
            · exact Or.inl h1
        | MODIFIED =>
            simp only [hs, Table.find_set] at h1
            split at h1
            · rename_i hn
              exact Or.inr ⟨r, by simp, hn.symm, Or.inr hs, Option.some.inj h1⟩
            · exact Or.inl h1
        | UNCHANGED =>
            simp only [hs] at h1
            exact Or.inl h1
      · exact Or.inr ⟨r1, by simp [hr1], hrest⟩

/-- C13, as stated, fails: with version 5 recorded for `a`, a MODIFIED result for `a` carrying
version 3 leaves version 3 recorded. -/
theorem UpdateRemoteConfig_version_can_decrease :
    ({ fresh "conf" with mConfigNameVersionMap := [("a", 5)] }).mConfigNameVersionMap.find "a"
        = some 5 ∧
      (UpdateRemoteConfig true (fun _ => ⟨true, true, true, true, none⟩)
          [⟨"a", 3, CheckStatus.MODIFIED, ""⟩] [⟨"a", "inputs: []"⟩]
          { fresh "conf" with mConfigNameVersionMap := [("a", 5)] }
          []).1.mConfigNameVersionMap.find "a" = some 3 := by
  decide

/-- C13, amended. For every call of `UpdateRemoteConfig` and every name the version map holds
after the call, the version recorded after the call is the one recorded before it or the
`new_version` of a NEW or MODIFIED check result of the call with that name. So when the map
holds the name before and after the call and every NEW or MODIFIED result of the call with
that name carries a version at least the one recorded before, the version after is at least
the version before. -/
theorem UpdateRemoteConfig_version_monotone (mkdirOk : Bool) (outcomes : Nat → FsOutcome)
    (checkResults : List ConfigCheckResult) (configDetails : List ConfigDetail)
    (s : LegacyCommonConfigProvider) (fs : FileSystem) (n : String) (after : Int)
    (hafter : (UpdateRemoteConfig mkdirOk outcomes checkResults configDetails s
      fs).1.mConfigNameVersionMap.find n = some after) :
    (s.mConfigNameVersionMap.find n = some after ∨
      ∃ r ∈ checkResults, r.name = n ∧
        (r.check_status = CheckStatus.NEW ∨ r.check_status = CheckStatus.MODIFIED) ∧
        r.new_version = after) ∧
      ∀ before : Int, s.mConfigNameVersionMap.find n = some before →
        (∀ r ∈ checkResults, r.name = n →
          (r.check_status = CheckStatus.NEW ∨ r.check_status = CheckStatus.MODIFIED) →
          before ≤ r.new_version) →
        before ≤ after := by
  have hsrc : s.mConfigNameVersionMap.find n = some after ∨
      ∃ r ∈ checkResults, r.name = n ∧
        (r.check_status = CheckStatus.NEW ∨ r.check_status = CheckStatus.MODIFIED) ∧
        r.new_version = after := by
    cases mkdirOk with
    | false =>
        left
        simpa [UpdateRemoteConfig, StopUsingConfigServer] using hafter
    | true =>
        have h2 : (updateLoop s.mContinuousPipelineConfigDir configDetails outcomes 0
            checkResults (s.mConfigNameVersionMap, fs)).1.find n = some after := by
          simpa [UpdateRemoteConfig] using hafter
        exact updateLoop_version_source _ _ _ n after checkResults 0 _ h2
  refine ⟨hsrc, ?_⟩
  intro before hbefore hserver
  rcases hsrc with h | ⟨r, hr, hn, hs, hv⟩
  · rw [hbefore] at h
    have e : before = after := Option.some.inj h
    omega
  · have := hserver r hr hn hs
    omega

/-- C13, amended, on two concrete calls. With version 5 recorded for `a` and one MODIFIED
result carrying version 3, the version recorded afterwards, 3, is that result's. With version
5 recorded and results carrying versions 6 and 7, version 7 is recorded afterwards, and
5 ≤ 7. -/
theorem UpdateRemoteConfig_version_monotone_witness :
    (({ fresh "conf" with mConfigNameVersionMap := [("a", 5)] } :
          LegacyCommonConfigProvider).mConfigNameVersionMap.find "a" = some 3 ∨
        ∃ r ∈ [(⟨"a", 3, CheckStatus.MODIFIED, ""⟩ : ConfigCheckResult)], r.name = "a" ∧
          (r.check_status = CheckStatus.NEW ∨ r.check_status = CheckStatus.MODIFIED) ∧
          r.new_version = 3) ∧
      (5 : Int) ≤ 7 :=
  ⟨(UpdateRemoteConfig_version_monotone true (fun _ => ⟨true, true, true, true, none⟩)
      [⟨"a", 3, CheckStatus.MODIFIED, ""⟩] [⟨"a", "inputs: []"⟩]
      { fresh "conf" with mConfigNameVersionMap := [("a", 5)] } [] "a" 3 (by decide)).1,
    (UpdateRemoteConfig_version_monotone true (fun _ => ⟨true, true, true, true, none⟩)
      [⟨"a", 6, CheckStatus.MODIFIED, ""⟩, ⟨"a", 7, CheckStatus.MODIFIED, ""⟩]
      [⟨"a", "inputs: []"⟩] { fresh "conf" with mConfigNameVersionMap := [("a", 5)] } []
      "a" 7 (by decide)).2 5 (by decide) (by decide)⟩

/-- The removal that follows a failed rename reports its outcome in an error code that is not
read. From an empty directory, a NEW result whose temporary file is written, whose rename
fails and whose temporary file is not removed by that call leaves `a.yaml.new` behind. -/
theorem UpdateRemoteConfig_tmp_left_when_removal_fails :
    (UpdateRemoteConfig true (fun _ => ⟨true, false, true, false, none⟩)
        [⟨"a", 1, CheckStatus.NEW, ""⟩] [⟨"a", "inputs: []"⟩] (fresh "conf") []).2.find
      (resolve (tmpFilePath "conf" "a")) = some "inputs: []" := by
  decide

theorem parseDecimal_of_toNat (numeral : String) (n : Nat) (h : numeral.toNat? = some n) :
    parseDecimal numeral.data = some n := by
  unfold String.toNat? at h
  split at h
  · rename_i hnat
    simp only [String.isNat, Bool.and_eq_true, Bool.not_eq_true', String.all_eq,
      List.all_eq_true] at hnat
    simp only [Option.some.injEq, String.foldl_eq] at h
    obtain ⟨hne, hdig⟩ := hnat
    have hval := digitsValue_eq_foldl numeral.data hdig 0
    rw [h] at hval
    have hne2 : numeral.data.isEmpty = false := by
      cases hd : numeral.data with
      | nil =>
          exfalso
          have : numeral = "" := String.ext hd
          subst this
          simp [String.isEmpty] at hne
      | cons c cs => rfl
    have hall : numeral.data.all Char.isDigit = true := List.all_eq_true.2 hdig
    simp [parseDecimal, hne2, hall, hval]
  · exact absurd h (by simp)

theorem parseDuration_seconds (numeral : String) (n : Nat) (h : numeral.toNat? = some n) :
    parseDuration (numeral ++ "s") = some n := by
  have hl : (numeral ++ "s").toList.reverse = 's' :: numeral.data.reverse := by
    simp [String.toList, String.data_append]
  unfold parseDuration
  rw [hl]
  simp [parseDecimal_of_toNat numeral n h]

theorem parseSize_KiB (numeral : String) (n : Nat) (h : numeral.toNat? = some n) :
    parseSize (numeral ++ "KiB") = some (n * 1024) := by
  have hl : (numeral ++ "KiB").toList.reverse = 'B' :: 'i' :: 'K' :: numeral.data.reverse := by
    simp [String.toList, String.data_append]
  unfold parseSize
  rw [hl]
  simp [parseDecimal_of_toNat numeral n h]

theorem parseSize_MiB (numeral : String) (n : Nat) (h : numeral.toNat? = some n) :
    parseSize (numeral ++ "MiB") = some (n * (1024 * 1024)) := by
  have hl : (numeral ++ "MiB").toList.reverse = 'B' :: 'i' :: 'M' :: numeral.data.reverse := by
    simp [String.toList, String.data_append]
  unfold parseSize
  rw [hl]
  simp [parseDecimal_of_toNat numeral n h]

theorem parseSize_GiB (numeral : String) (n : Nat) (h : numeral.toNat? = some n) :
    parseSize (numeral ++ "GiB") = some (n * (1024 * 1024 * 1024)) := by
  have hl : (numeral ++ "GiB").toList.reverse = 'B' :: 'i' :: 'G' :: numeral.data.reverse := by
    simp [String.toList, String.data_append]
  unfold parseSize
  rw [hl]
  simp [parseDecimal_of_toNat numeral n h]

/-- What a successful `ScrapeConfig::Init` has read: every member of the result in terms of
the descriptor. -/
theorem ScrapeConfig_Init_some (config : ScrapeConfigDescriptor) (cfg : ScrapeConfig)
    (h : ScrapeConfig.Init config = some cfg) :
    config.job_name = some cfg.mJobName ∧ cfg.mJobName ≠ "" ∧
      config.scrape_interval.bind parseDuration = some cfg.mScrapeIntervalSeconds.toNat ∧
      config.scrape_timeout.bind parseDuration = some cfg.mScrapeTimeoutSeconds.toNat ∧
      0 ≤ cfg.mScrapeIntervalSeconds ∧ 0 ≤ cfg.mScrapeTimeoutSeconds ∧
      (match config.max_scrape_size with
        | none => some 0
        | some size => parseSize size) = some cfg.mMaxScrapeSizeBytes ∧
      cfg.mSampleLimit = config.sample_limit.getD 0 ∧
      cfg.mSeriesLimit = config.series_limit.getD 0 ∧
      initRelabelConfigs config.metric_relabel_configs
        = some cfg.mMetricRelabelConfigs.mRelabelConfigs := by
  unfold ScrapeConfig.Init at h
  split at h
  · exact absurd h (by simp)
  · rename_i jobName hjob
    split at h
    · exact absurd h (by simp)
    · rename_i hne
      split at h
      · rename_i interval timeout hi ht
        split at h
        · exact absurd h (by simp)
        · split at h
          · rename_i maxBytes relabel metricRelabel hsize hrel hmrel
            split at h
            · exact absurd h (by simp)
            · split at h
              · exact absurd h (by simp)
              · split at h
                · exact absurd h (by simp)
                · simp only [Option.some.injEq] at h
                  subst h
                  simp [hjob, hne, hi, ht, hsize, hmrel]
          · exact absurd h (by simp)
      · exact absurd h (by simp)
theorem toNat_fifteen : ("15" : String).toNat? = some 15 := by
  simp [String.toNat?, String.isNat, String.all_eq, String.foldl_eq, String.isEmpty]
  decide

theorem toNat_ten : ("10" : String).toNat? = some 10 := by
  simp [String.toNat?, String.isNat, String.all_eq, String.foldl_eq, String.isEmpty]
  decide

/-- C15. A successful `Init` of a scrape descriptor sets `mScrapeIntervalSeconds` and
`mScrapeTimeoutSeconds` to the number of seconds of the duration strings (`<n>s` gives `n`),
sets `mMaxScrapeSizeBytes`, `mSampleLimit` and `mSeriesLimit` to 0 when their keys are absent,
and otherwise sets `mMaxScrapeSizeBytes` to the byte count of the size string (`<n>KiB`,
`<n>MiB`, `<n>GiB` give `n` times 1024, 1024², 1024³) and the two limits to the given
integers; the input's target subscriber holds this configuration. -/
theorem ScrapeConfig_Init_durations_sizes_limits (config : ScrapeConfigDescriptor)
    (cfg : ScrapeConfig) (h : ScrapeConfig.Init config = some cfg) :
    (∀ numeral n, config.scrape_interval = some (numeral ++ "s") → numeral.toNat? = some n →
        cfg.mScrapeIntervalSeconds = (n : Int)) ∧
      (∀ numeral n, config.scrape_timeout = some (numeral ++ "s") → numeral.toNat? = some n →
        cfg.mScrapeTimeoutSeconds = (n : Int)) ∧
      (config.max_scrape_size = none → cfg.mMaxScrapeSizeBytes = 0) ∧
      (config.sample_limit = none → cfg.mSampleLimit = 0) ∧
      (config.series_limit = none → cfg.mSeriesLimit = 0) ∧
      (∀ numeral n, config.max_scrape_size = some (numeral ++ "KiB") →
        numeral.toNat? = some n → cfg.mMaxScrapeSizeBytes = n * 1024) ∧
      (∀ numeral n, config.max_scrape_size = some (numeral ++ "MiB") →
        numeral.toNat? = some n → cfg.mMaxScrapeSizeBytes = n * (1024 * 1024)) ∧
      (∀ numeral n, config.max_scrape_size = some (numeral ++ "GiB") →
        numeral.toNat? = some n → cfg.mMaxScrapeSizeBytes = n * (1024 * 1024 * 1024)) ∧
      (∀ k, config.sample_limit = some k → cfg.mSampleLimit = k) ∧
      (∀ k, config.series_limit = some k → cfg.mSeriesLimit = k) ∧
      (InputPrometheus.Init ⟨some config⟩).map (fun i => i.mTargetSubscirber.mScrapeConfigPtr)
        = some cfg := by
  obtain ⟨-, -, hi, ht, hi0, ht0, hsize, hsample, hseries, -⟩ :=
    ScrapeConfig_Init_some config cfg h
  refine ⟨?_, ?_, ?_, ?_, ?_, ?_, ?_, ?_, ?_, ?_, ?_⟩
  · intro numeral n hc hn
    rw [hc, Option.some_bind, parseDuration_seconds numeral n hn] at hi
    have := Option.some.inj hi
    omega
  · intro numeral n hc hn
    rw [hc, Option.some_bind, parseDuration_seconds numeral n hn] at ht
    have := Option.some.inj ht
    omega
  · intro hc
    rw [hc] at hsize
    exact (Option.some.inj hsize).symm
  · intro hc
    rw [hsample, hc]
    rfl
  · intro hc
    rw [hseries, hc]
    rfl
  · intro numeral n hc hn
    rw [hc] at hsize
    simp only [parseSize_KiB numeral n hn] at hsize
    exact (Option.some.inj hsize).symm
  · intro numeral n hc hn
    rw [hc] at hsize
    simp only [parseSize_MiB numeral n hn] at hsize
    exact (Option.some.inj hsize).symm
  · intro numeral n hc hn
    rw [hc] at hsize
    simp only [parseSize_GiB numeral n hn] at hsize
    exact (Option.some.inj hsize).symm
  · intro k hc
    rw [hsample, hc]
    rfl
  · intro k hc
    rw [hseries, hc]
    rfl
  · simp [InputPrometheus.Init, h]

/-- C15, on the two cases of `OnSuccessfulInit`: both descriptors initialise; the theorem gives
the interval of 15 seconds and the 10 MiB of the second one, and evaluation gives what the
unit test asserts: 15 and 15 seconds with no size and no limits, then 15, 15, 10485760,
1000000 and 1000000. -/
theorem ScrapeConfig_Init_durations_sizes_limits_witness :
    ((ScrapeConfig.Init unittestAllUseful).isSome = true ∧
      ∀ cfg, ScrapeConfig.Init unittestAllUseful = some cfg →
        cfg.mScrapeIntervalSeconds = 15 ∧ cfg.mMaxScrapeSizeBytes = 10 * (1024 * 1024)) ∧
    (ScrapeConfig.Init unittestOnlyMandatory).map
        (fun c => (c.mScrapeIntervalSeconds, c.mScrapeTimeoutSeconds, c.mMaxScrapeSizeBytes,
          c.mSampleLimit, c.mSeriesLimit)) = some (15, 15, 0, 0, 0) ∧
    (ScrapeConfig.Init unittestAllUseful).map
        (fun c => (c.mScrapeIntervalSeconds, c.mScrapeTimeoutSeconds, c.mMaxScrapeSizeBytes,
          c.mSampleLimit, c.mSeriesLimit)) = some (15, 15, 10485760, 1000000, 1000000) :=
  ⟨⟨by decide, fun cfg hcfg =>
      ⟨(ScrapeConfig_Init_durations_sizes_limits unittestAllUseful cfg hcfg).1 "15" 15
          (by decide) toNat_fifteen,
        (ScrapeConfig_Init_durations_sizes_limits unittestAllUseful cfg hcfg).2.2.2.2.2.2.1
          "10" 10 (by decide) toNat_ten⟩⟩,
    by decide, by decide⟩

/-- C16. `Init` of the Prometheus input fails for every descriptor that has no `"ScrapeConfig"`
object or whose `ScrapeConfig` has no `job_name` or an empty one, whatever its other members
are. -/
theorem InputPrometheus_Init_fails_without_job_name (config : InputPrometheusDescriptor)
    (h : config.scrapeConfig = none ∨
      ∃ sc, config.scrapeConfig = some sc ∧ (sc.job_name = none ∨ sc.job_name = some "")) :
    InputPrometheus.Init config = none := by
  rcases h with h | ⟨sc, hsc, hjob | hjob⟩
  · simp [InputPrometheus.Init, h]
  · simp [InputPrometheus.Init, hsc, ScrapeConfig.Init, hjob]
  · simp [InputPrometheus.Init, hsc, ScrapeConfig.Init, hjob]

/-- C16, on the two cases of `OnFailedInit`: the descriptor without `"ScrapeConfig"` and the
one whose `job_name` is empty with otherwise valid members both fail, while the latter's
members with a job name initialise. -/
theorem InputPrometheus_Init_fails_without_job_name_witness :
    InputPrometheus.Init ⟨none⟩ = none ∧
      InputPrometheus.Init ⟨some unittestEmptyJobName⟩ = none ∧
      (InputPrometheus.Init ⟨some unittestOnlyMandatory⟩).isSome = true :=
  ⟨InputPrometheus_Init_fails_without_job_name ⟨none⟩ (Or.inl rfl),
    InputPrometheus_Init_fails_without_job_name ⟨some unittestEmptyJobName⟩
      (Or.inr ⟨unittestEmptyJobName, rfl, Or.inr rfl⟩),
    by decide⟩

theorem initRelabelConfigs_actions (rs : List RelabelDescriptor) (cs : List RelabelConfig)
    (h : initRelabelConfigs rs = some cs) :
    cs.length = rs.length ∧
      rs.map (fun r => StringToAction r.action) = cs.map (fun c => some c.mAction) := by
  induction rs generalizing cs with
  | nil =>
      simp only [initRelabelConfigs, Option.some.injEq] at h
      subst h
      exact ⟨rfl, rfl⟩
  | cons r rs ih =>
      unfold initRelabelConfigs at h
      split at h
      · rename_i c cs1 hc hcs
        simp only [Option.some.injEq] at h
        subst h
        obtain ⟨hlen, hact⟩ := ih cs1 hcs
        have ha : StringToAction r.action = some c.mAction := by
          unfold initRelabelConfig at hc
          split at hc
          · exact absurd hc (by simp)
          · rename_i a hsa
            simp only [Option.some.injEq] at hc
            subst hc
            exact hsa
        exact ⟨by simp [hlen], by simp [ha, hact]⟩
      · exact absurd h (by simp)

/-- C17. A Prometheus input that initialises creates exactly two inner processors, the parse
processor followed by the relabel processor, on one scrape configuration, whose
`mMetricRelabelConfigs` has one entry per declared `metric_relabel_configs` element, in
declared order, each with the action its element declares. -/
theorem InputPrometheus_Init_inner_processors (config : InputPrometheusDescriptor)
    (input : InputPrometheus) (h : InputPrometheus.Init config = some input) :
    ∃ sc cfg, config.scrapeConfig = some sc ∧
      input.mInnerProcessors
        = [InnerProcessor.ProcessorPromParseMetricNative cfg,
            InnerProcessor.ProcessorPromRelabelMetricNative cfg] ∧
      cfg.mMetricRelabelConfigs.mRelabelConfigs.length = sc.metric_relabel_configs.length ∧
      sc.metric_relabel_configs.map (fun r => StringToAction r.action)
        = cfg.mMetricRelabelConfigs.mRelabelConfigs.map (fun c => some c.mAction) := by
  unfold InputPrometheus.Init at h
  split at h
  · exact absurd h (by simp)
  · rename_i sc hsc
    split at h
    · exact absurd h (by simp)
    · rename_i cfg hcfg
      simp only [Option.some.injEq] at h
      subst h
      obtain ⟨-, -, -, -, -, -, -, -, -, hrel⟩ := ScrapeConfig_Init_some sc cfg hcfg
      obtain ⟨hlen, hact⟩ := initRelabelConfigs_actions _ _ hrel
      exact ⟨sc, cfg, hsc, rfl, hlen, hact⟩

/-- C17, on the two cases of `TestCreateInnerProcessor`: without `metric_relabel_configs` the
relabel processor has 0 entries, and with the elements `keep`, `keep`, `replace` it has the 3
entries `KEEP`, `KEEP`, `REPLACE`; the theorem is applied to the second case. -/
theorem InputPrometheus_Init_inner_processors_witness :
    (∃ sc cfg,
      (⟨some unittestMetricRelabel⟩ : InputPrometheusDescriptor).scrapeConfig = some sc ∧
      (match InputPrometheus.Init ⟨some unittestMetricRelabel⟩ with
        | some input => input.mInnerProcessors
        | none => [])
        = [InnerProcessor.ProcessorPromParseMetricNative cfg,
            InnerProcessor.ProcessorPromRelabelMetricNative cfg] ∧
      cfg.mMetricRelabelConfigs.mRelabelConfigs.length = sc.metric_relabel_configs.length ∧
      sc.metric_relabel_configs.map (fun r => StringToAction r.action)
        = cfg.mMetricRelabelConfigs.mRelabelConfigs.map (fun c => some c.mAction)) ∧
    (InputPrometheus.Init ⟨some unittestMetricRelabel⟩).map (fun input =>
        input.mInnerProcessors.map (fun p =>
          match p with
          | InnerProcessor.ProcessorPromParseMetricNative _ => []
          | InnerProcessor.ProcessorPromRelabelMetricNative c =>
              c.mMetricRelabelConfigs.mRelabelConfigs.map (fun r => r.mAction)))
      = some [[], [Action.KEEP, Action.KEEP, Action.REPLACE]] ∧
    (InputPrometheus.Init ⟨some unittestOnlyMandatory⟩).map (fun input =>
        input.mInnerProcessors.map (fun p =>
          match p with
          | InnerProcessor.ProcessorPromParseMetricNative _ => 0
          | InnerProcessor.ProcessorPromRelabelMetricNative c =>
              c.mMetricRelabelConfigs.mRelabelConfigs.length))
      = some [0, 0] := by
  refine ⟨?_, by decide, by decide⟩
  cases hinit : InputPrometheus.Init ⟨some unittestMetricRelabel⟩ with
  | none => exact absurd hinit (by decide)
  | some input =>
      exact InputPrometheus_Init_inner_processors ⟨some unittestMetricRelabel⟩ input hinit

/-! ## File-server registry -/

theorem FileServer_get_call (s : FileServer) (c : RegistryCall) (kind : ConfigKind)
    (name : String) :
    (s.call c).get kind name
      = if RegistryCall.concerns kind name c = true then
          (match c with
            | RegistryCall.add _ _ opts ctx => some (opts, ctx)
            | RegistryCall.remove _ _ => none)
        else s.get kind name := by
  cases c with
  | add k n opts ctx =>
      by_cases hn : name = n
      · subst hn
        cases k <;> cases kind <;>
          simp [FileServer.call, FileServer.get, RegistryCall.concerns,
            FileServer.AddFileDiscoveryConfig, FileServer.AddFileReaderConfig,
            FileServer.AddMultilineConfig, FileServer.AddFileTagConfig,
            FileServer.GetFileDiscoveryConfig, FileServer.GetFileReaderConfig,
            FileServer.GetMultilineConfig, FileServer.GetFileTagConfig, Table.find_set]
      · have hn2 : ¬ n = name := fun e => hn e.symm
        cases k <;> cases kind <;>
          simp [FileServer.call, FileServer.get, RegistryCall.concerns,
            FileServer.AddFileDiscoveryConfig, FileServer.AddFileReaderConfig,
            FileServer.AddMultilineConfig, FileServer.AddFileTagConfig,
            FileServer.GetFileDiscoveryConfig, FileServer.GetFileReaderConfig,
            FileServer.GetMultilineConfig, FileServer.GetFileTagConfig, Table.find_set, hn, hn2]
  | remove k n =>
      by_cases hn : name = n
      · subst hn
        cases k <;> cases kind <;>
          simp [FileServer.call, FileServer.get, RegistryCall.concerns,
            FileServer.RemoveFileDiscoveryConfig, FileServer.RemoveFileReaderConfig,
            FileServer.RemoveMultilineConfig, FileServer.RemoveFileTagConfig,
            FileServer.GetFileDiscoveryConfig, FileServer.GetFileReaderConfig,
            FileServer.GetMultilineConfig, FileServer.GetFileTagConfig, Table.find_erase]
      · have hn2 : ¬ n = name := fun e => hn e.symm
        cases k <;> cases kind <;>
          simp [FileServer.call, FileServer.get, RegistryCall.concerns,
            FileServer.RemoveFileDiscoveryConfig, FileServer.RemoveFileReaderConfig,
            FileServer.RemoveMultilineConfig, FileServer.RemoveFileTagConfig,
            FileServer.GetFileDiscoveryConfig, FileServer.GetFileReaderConfig,
            FileServer.GetMultilineConfig, FileServer.GetFileTagConfig, Table.find_erase, hn,
            hn2]

theorem FileServer_get_calls (s : FileServer) (cs : List RegistryCall) (kind : ConfigKind)
    (name : String) :
    (s.calls cs).get kind name = mostRecentAdd kind name (s.get kind name) cs := by
  induction cs using List.reverseRecOn with
  | nil => rfl
  | append_singleton cs c ih =>
      have hrun : s.calls (cs ++ [c]) = (s.calls cs).call c := by
        simp [FileServer.calls, List.foldl_append]
      rw [hrun, FileServer_get_call, ih]
      unfold mostRecentAdd
      simp only [List.reverse_append, List.reverse_singleton, List.singleton_append,
        List.find?_cons]
      cases hc : RegistryCall.concerns kind name c with
      | true => cases c <;> simp
      | false => simp

/-- C18. For each of the four kinds and every sequence of add and remove calls, `get(n)`
returns the `(opts, ctx)` pair of the most recent `add(n, ..)` of the kind that has not been
followed by a `remove(n)` of the kind, and none otherwise. In particular, after any calls,
`add(n, o, c); remove(n)` leaves `get(n)` none, `add(n, o1, c1); add(n, o2, c2)` leaves it
`(o2, c2)`, and `get` of a name never added to the new registry is none. -/
theorem FileServer_get_most_recent_add (kind : ConfigKind) (name : String) :
    (∀ cs : List RegistryCall,
      (FileServer.empty.calls cs).get kind name = mostRecentAdd kind name none cs) ∧
    (∀ (cs : List RegistryCall) (o c : Ref),
      (FileServer.empty.calls
          (cs ++ [RegistryCall.add kind name o c, RegistryCall.remove kind name])).get kind name
        = none) ∧
    (∀ (cs : List RegistryCall) (o1 c1 o2 c2 : Ref),
      (FileServer.empty.calls
          (cs ++ [RegistryCall.add kind name o1 c1, RegistryCall.add kind name o2 c2])).get
          kind name = some (o2, c2)) ∧
    (∀ cs : List RegistryCall,
      (∀ (o c : Ref), RegistryCall.add kind name o c ∉ cs) →
      (FileServer.empty.calls cs).get kind name = none) := by
  have hempty : FileServer.empty.get kind name = none := by
    cases kind <;> rfl
  have hmain : ∀ cs : List RegistryCall,
      (FileServer.empty.calls cs).get kind name = mostRecentAdd kind name none cs := by
    intro cs
    rw [FileServer_get_calls, hempty]
  refine ⟨hmain, ?_, ?_, ?_⟩
  · intro cs o c
    rw [hmain]
    simp [mostRecentAdd, RegistryCall.concerns]
  · intro cs o1 c1 o2 c2
    rw [hmain]
    simp [mostRecentAdd, RegistryCall.concerns]
  · intro cs hnever
    rw [hmain]
    unfold mostRecentAdd
    cases hf : cs.reverse.find? (RegistryCall.concerns kind name) with
    | none => rfl
    | some call =>
        cases call with
        | remove k n => rfl
        | add k n o c =>
            exfalso
            have hmem := List.mem_of_find?_eq_some hf
            have hcon := List.find?_some hf
            simp only [RegistryCall.concerns, Bool.decide_and, Bool.and_eq_true,
              decide_eq_true_eq] at hcon
            obtain ⟨hk, hn⟩ := hcon
            subst hk
            subst hn
            exact hnever o c (List.mem_reverse.1 hmem)


/-! ## `UpdateRemoteConfig`: which detail is written -/

/-- A later result with the same `<name>.yaml` file acts on that file: after `NEW a` without
a detail and then `DELETED a` in one call, `a.yaml` and the entry of `a` are gone; after
`NEW a` without a detail and then `NEW ./a` with the detail `x`, `a.yaml` holds `x`. -/
theorem UpdateRemoteConfig_later_result_overrides :
    UpdateRemoteConfig true (fun _ => ⟨true, true, true, true, none⟩)
        [⟨"a", 1, CheckStatus.NEW, ""⟩, ⟨"a", 1, CheckStatus.DELETED, ""⟩] []
        (fresh "conf") [("conf/a.yaml", "old")]
      = (fresh "conf", []) ∧
    (UpdateRemoteConfig true (fun _ => ⟨true, true, true, true, none⟩)
        [⟨"a", 1, CheckStatus.NEW, ""⟩, ⟨"./a", 2, CheckStatus.NEW, ""⟩] [⟨"./a", "x"⟩]
        (fresh "conf") [("conf/a.yaml", "old")]).2.find (resolve (filePath "conf" "a"))
      = some "x" := by
  decide

end logtail
